import Mathlib

/-!
Verification development for the dynamic API execution engine of the
DBAPI_Service repository: a shallow embedding in Lean 4 of the pure,
per-request computations of the backend (SQL parameter extraction and
inference, request validation, SQL rendering and row capping, route
matching, the usage-statistics upserts, the connection-pool registry
registration logic, and the execution orchestrator's control flow),
together with theorems settling the specification's claims about them.

Conventions used throughout:
* JavaScript runtime values appearing in request parameter bags are
  modelled by `JsVal` (strings, integers, booleans); JS objects are
  modelled as association lists in key-insertion order.
* `jsReplaceAll` models `String.prototype.replace(new RegExp(p, g), r)`
  with a literal pattern: all non-overlapping occurrences are replaced
  left to right, and the replacement text undergoes the JS dollar
  sequence expansion (a doubled dollar collapses to one dollar, a
  dollar-ampersand inserts the matched text, a dollar-backquote and a
  dollar-quote insert the text before and after the match; any other
  dollar sequence stays literal, as the pattern has no capture groups).
* The metadata store is SQLite; an `ON CONFLICT ... DO UPDATE SET`
  upsert evaluates every right-hand side of the SET list against the
  pre-update row (assignments do not cascade).
-/

/-- The single-quote character, used when building quoted SQL literals. -/
def squoteChar : Char := Char.ofNat 39

/-- A string holding one single quote. -/
def squote : String := String.mk [squoteChar]

/-- Character-level lower-casing (JS `toLowerCase` on the ASCII texts the
engine handles). -/
def strToLower (s : String) : String := String.mk (s.toList.map Char.toLower)

/-- Character-level upper-casing (JS `toUpperCase`). -/
def strToUpper (s : String) : String := String.mk (s.toList.map Char.toUpper)

/-- JS `trim()`: whitespace stripped from both ends. -/
def strTrim (s : String) : String :=
  String.mk (((s.toList.dropWhile Char.isWhitespace).reverse.dropWhile
    Char.isWhitespace).reverse)

/-- JS `startsWith`. -/
def strStartsWith (s pre : String) : Bool :=
  pre.toList.isPrefixOf s.toList

/-- JS `endsWith`. -/
def strEndsWith (s suf : String) : Bool :=
  suf.toList.reverse.isPrefixOf s.toList.reverse

/-- Substring occurrence at any position of the text. -/
def listContainsSub (sub : List Char) : List Char → Bool
  | [] => sub.isEmpty
  | c :: rest => sub.isPrefixOf (c :: rest) || listContainsSub sub rest

/-- `s.includes(sub)` of JS, as used by the rendering loop and the
row-cap checks. -/
def strContains (s sub : String) : Bool :=
  if sub = "" then true else listContainsSub sub.toList s.toList

/-- Splitting a character list at every occurrence of a separator
(JS `split(sep)` : adjacent separators yield empty groups). -/
def splitCharAux (sep : Char) : List Char → List (List Char)
  | [] => [[]]
  | c :: rest =>
    match splitCharAux sep rest with
    | [] => [[]]
    | g :: gs => if c = sep then [] :: g :: gs else (c :: g) :: gs

/-- Fuel-driven scan replacing every non-overlapping occurrence of a
non-empty pattern, left to right (the behaviour of JS
`replace(new RegExp(literal, g), rep)` with literal replacement text;
the fuel argument only makes the recursion structural and is always
passed the text length, which bounds the number of steps). -/
def replaceAllAux (pat rep : List Char) : Nat → List Char → List Char
  | _, [] => []
  | 0, cs => cs
  | fuel + 1, c :: rest =>
    if pat.isPrefixOf (c :: rest) then
      rep ++ replaceAllAux pat rep fuel (rest.drop (pat.length - 1))
    else c :: replaceAllAux pat rep fuel rest

/-- All occurrences of `pat` in `s` replaced by the literal text `rep`
(an empty pattern leaves the text unchanged).  This is the
dollar-expansion-free substitution the specification's "raw literal"
wording describes; `jsReplaceAll` below is the program's actual
semantics, and the two coincide exactly when the replacement text
carries no dollar character. -/
def strReplaceAll (s pat rep : String) : String :=
  if pat = "" then s
  else String.mk (replaceAllAux pat.toList rep.toList s.toList.length s.toList)

/-- The dollar character of the JS replacement-pattern syntax. -/
def dollarChar : Char := Char.ofNat 36

/-- The ampersand character. -/
def ampChar : Char := Char.ofNat 38

/-- The backquote character. -/
def backquoteChar : Char := Char.ofNat 96

/-- JS expansion of one replacement text at one match site: a doubled
dollar collapses to a single dollar, dollar-ampersand inserts the
matched text, dollar-backquote the text before the match,
dollar-quote the text after the match; every other character — and
every other dollar sequence, since a literal-placeholder regex has no
capture groups — is copied through (a dollar followed by a
non-special character emits both characters unchanged). -/
def expandRepAux (matched before after : List Char) : List Char → List Char
  | [] => []
  | c :: rest =>
    if c = dollarChar then
      match rest with
      | [] => [c]
      | d :: rest2 =>
        if d = dollarChar then
          dollarChar :: expandRepAux matched before after rest2
        else if d = ampChar then
          matched ++ expandRepAux matched before after rest2
        else if d = backquoteChar then
          before ++ expandRepAux matched before after rest2
        else if d = squoteChar then
          after ++ expandRepAux matched before after rest2
        else c :: d :: expandRepAux matched before after rest2
    else c :: expandRepAux matched before after rest

/-- Fuel-driven scan of `String.prototype.replace` with a global
literal-text pattern: at each match, the replacement text is expanded
against the matched text, the original text before the match (`pre`,
accumulated by the scan) and the original text after the match.  The
fuel only makes the recursion structural and is always passed the text
length, which bounds the number of steps. -/
def jsReplaceAllAux (pat rep : List Char) : Nat → List Char → List Char → List Char
  | _, _, [] => []
  | 0, _, cs => cs
  | fuel + 1, pre, c :: rest =>
    if pat.isPrefixOf (c :: rest) then
      expandRepAux pat pre (rest.drop (pat.length - 1)) rep ++
        jsReplaceAllAux pat rep fuel (pre ++ pat) (rest.drop (pat.length - 1))
    else c :: jsReplaceAllAux pat rep fuel (pre ++ [c]) rest

/-- `s.replace(new RegExp(pat, g), rep)` of JS on a literal pattern:
all non-overlapping occurrences replaced left to right, with the
dollar sequences of the replacement text expanded at each match site
(an empty pattern leaves the text unchanged; the engine only
substitutes non-empty placeholder tokens). -/
def jsReplaceAll (s pat rep : String) : String :=
  if pat = "" then s
  else String.mk (jsReplaceAllAux pat.toList rep.toList s.toList.length [] s.toList)

/-- Decimal digit run to a number. -/
def parseDigitsAux : List Char → Nat → Option Nat
  | [], acc => some acc
  | c :: rest, acc =>
    if c.isDigit then parseDigitsAux rest (acc * 10 + (c.toNat - 48)) else none

/-- Integer parse of a string: optional minus sign and a non-empty digit
run (models the numeric strings Joi's number rule converts). -/
def parseIntStr (s : String) : Option Int :=
  match s.toList with
  | [] => none
  | c :: rest =>
    if c = Char.ofNat 45 then
      match rest with
      | [] => none
      | _ => (parseDigitsAux rest 0).map (fun n => -(n : Int))
    else (parseDigitsAux (c :: rest) 0).map (fun n => (n : Int))

/-- `sql.lastIndexOf(c)` over the character list of the string. -/
def lastIndexOfChar (cs : List Char) (c : Char) : Option Nat :=
  (List.range cs.length).foldl
    (fun acc i => if cs.get? i = some c then some i else acc) none

/-- `sql.substring(0, i) + clause + sql.substring(i)` where `i` is the last
index of a semicolon, or `sql + clause` when the text has no semicolon:
the splice used by the MySQL/PostgreSQL/Oracle row-cap injection. -/
def insertBeforeLastSemicolon (sql clause : String) : String :=
  let cs := sql.toList
  match lastIndexOfChar cs ';' with
  | none => sql ++ clause
  | some i => String.mk (cs.take i) ++ clause ++ String.mk (cs.drop i)

/-- JavaScript runtime values as they occur in request parameter bags. -/
inductive JsVal where
  | s (v : String)
  | n (v : Int)
  | b (v : Bool)
deriving Repr, DecidableEq

/-- A JS object as an association list in key-insertion order. -/
abbrev JsBag := List (String × JsVal)

/-- Property lookup on a JS object (first, hence unique, binding of the key). -/
def jsLookup (bag : JsBag) (k : String) : Option JsVal :=
  (bag.find? (fun kv => kv.1 = k)).map (fun kv => kv.2)

/-- JS property assignment: an existing key is updated in place (keeping its
position in insertion order), a new key is appended. -/
def jsSet (bag : JsBag) (k : String) (v : JsVal) : JsBag :=
  if bag.any (fun kv => kv.1 = k) then
    bag.map (fun kv => if kv.1 = k then (k, v) else kv)
  else
    bag ++ [(k, v)]

/-- JS object spread `{ ...a, ...b }`: entries of `b` assigned over `a`. -/
def jsMerge (a b : JsBag) : JsBag :=
  b.foldl (fun acc kv => jsSet acc kv.1 kv.2) a

/-- `String(value)` of JavaScript on the modelled values. -/
def jsString : JsVal → String
  | .s v => v
  | .n v => toString v
  | .b v => if v then "true" else "false"

/- ------------------------------------------------------------------
SQLParameterExtractor (src/unnamed/part_005)
------------------------------------------------------------------ -/

/-- JS `\w` on ASCII: letters, digits and underscore. -/
def isWordChar (c : Char) : Bool :=
  c.isAlpha || c.isDigit || c = '_'

/-- Fuel-driven placeholder scan step (see `scanPlaceholders`). -/
def scanPlaceholdersAux : Nat → List Char → List String
  | _, [] => []
  | 0, _ => []
  | fuel + 1, '\x7b' :: '\x7b' :: rest =>
    let name := rest.takeWhile isWordChar
    if name.isEmpty then scanPlaceholdersAux fuel ('\x7b' :: rest)
    else
      match rest.drop name.length with
      | '\x7d' :: '\x7d' :: rest2 => String.mk name :: scanPlaceholdersAux fuel rest2
      | _ => scanPlaceholdersAux fuel ('\x7b' :: rest)
  | fuel + 1, _ :: rest => scanPlaceholdersAux fuel rest

/-- Left-to-right scan of the SQL text for `\x7b\x7b(\w+)\x7d\x7d` matches,
as performed by the global regex loop in `extractParameters`: at each
position either a full placeholder is matched (and the scan resumes
after it) or the scan advances one character.  The fuel of the
auxiliary scan only makes the recursion structural; the text length
bounds the number of steps. -/
def scanPlaceholders (cs : List Char) : List String :=
  scanPlaceholdersAux cs.length cs

/-- Distinct placeholder names in first-occurrence order
(the `matches.includes` deduplication of `extractParameters`). -/
def extractParamNames (sql : String) : List String :=
  (scanPlaceholders sql.toList).foldl
    (fun acc n => if acc.contains n then acc else acc ++ [n]) []

/-- A parameter record as produced by the extractor and as stored in the
`api_parameters` table (`required` is the 0/1 integer the code uses). -/
structure ExtractedParameter where
  param_name : String
  param_type : String
  data_type : String
  required : Nat
  default_value : Option String
  validation_rule : Option String
  description : Option String
deriving Repr, DecidableEq

/-- `inferParamType`: path/query vocabularies, then an insert/update scan
of the SQL text, else query. -/
def inferParamType (paramName sql : String) : String :=
  let commonPathParams := ["id", "uuid", "pk", "primary_key"]
  let commonQueryParams := ["limit", "offset", "order_by", "order", "sort",
    "search", "page", "size", "filter", "start_date", "end_date", "from", "to"]
  let ln := strToLower paramName
  if commonPathParams.any (fun p => ln = p || strEndsWith ln ("_" ++ p)) then "path"
  else if commonQueryParams.any (fun p => ln = p || strEndsWith ln ("_" ++ p)) then "query"
  else if strContains (strToLower sql) "insert" || strContains (strToLower sql) "update" then "body"
  else "query"

/-- `inferDataType`: the regex pattern families of the source.  Patterns
anchored with `$` are suffix tests; the unanchored `is_` and `has_`
boolean patterns are substring tests.  Families are tried in the order
number, boolean, date; default string. -/
def inferDataType (paramName : String) : String :=
  let ln := strToLower paramName
  let numberSuffixes := ["id", "_id", "count", "total", "sum", "avg", "max",
    "min", "limit", "offset", "page", "size", "amount", "price", "quantity",
    "age", "score", "rate", "percent", "ratio"]
  let booleanSubstrings := ["is_", "has_"]
  let booleanSuffixes := ["enabled", "disabled", "active", "inactive",
    "deleted", "verified", "approved", "rejected", "published", "visible",
    "hidden", "locked", "unlocked"]
  let dateSuffixes := ["date", "time", "_at", "_on", "created", "updated",
    "deleted", "start", "end", "from", "to", "begin", "expire", "due",
    "birthday", "birth_date", "join_date", "register_date"]
  if numberSuffixes.any (fun p => strEndsWith ln p) then "number"
  else if booleanSubstrings.any (fun p => strContains ln p)
       || booleanSuffixes.any (fun p => strEndsWith ln p) then "boolean"
  else if dateSuffixes.any (fun p => strEndsWith ln p) then "date"
  else "string"

/-- `inferRequired`: known optional names and `optional_` prefixed or
`_optional` suffixed names default to not required. -/
def inferRequired (paramName : String) : Bool :=
  let ln := strToLower paramName
  let commonOptionalParams := ["limit", "offset", "order_by", "order",
    "search", "page", "size", "filter"]
  if commonOptionalParams.contains ln then false
  else if strStartsWith ln "optional_" then false
  else if strEndsWith ln "_optional" then false
  else true

/-- `generateDescription`: the fixed description table with the
`name + " parameter"` fallback. -/
def generateDescription (paramName : String) : String :=
  let ln := strToLower paramName
  let descriptions : List (String × String) := [
    ("id", "Record identifier"),
    ("limit", "Maximum number of records to return"),
    ("offset", "Number of records to skip"),
    ("order_by", "Column to order by"),
    ("order", "Sort order (ASC or DESC)"),
    ("search", "Search term for filtering"),
    ("page", "Page number"),
    ("size", "Page size"),
    ("start_date", "Start date for filtering"),
    ("end_date", "End date for filtering"),
    ("status", "Record status"),
    ("name", "Name"),
    ("email", "Email address"),
    ("username", "Username"),
    ("password", "Password"),
    ("created_at", "Creation timestamp"),
    ("updated_at", "Last update timestamp"),
    ("deleted_at", "Deletion timestamp")]
  match descriptions.find? (fun kv => kv.1 = ln) with
  | some kv => kv.2
  | none => paramName ++ " parameter"

/-- `inferParameter`: assembles the freshly inferred record for one name. -/
def inferParameter (paramName sql : String) : ExtractedParameter :=
  { param_name := paramName
    param_type := inferParamType paramName sql
    data_type := inferDataType paramName
    required := if inferRequired paramName then 1 else 0
    default_value := none
    validation_rule := none
    description := some (generateDescription paramName) }

/-- `extractParameters`: distinct placeholders in first-occurrence order,
each with fresh inference (empty SQL text yields the empty list). -/
def extractParameters (sql : String) : List ExtractedParameter :=
  if sql = "" then []
  else (extractParamNames sql).map (fun n => inferParameter n sql)

/-- JS `a || b` on an optional stored string against an always-present
fresh string: the stored value wins only when it is present and
non-empty (truthy). -/
def jsOrStr (a : Option String) (b : Option String) : Option String :=
  match a with
  | some s => if s = "" then b else some s
  | none => b

/-- Last-wins name lookup of `new Map(existing.map(p => [p.param_name, p]))`. -/
def lookupStored (stored : List ExtractedParameter) (n : String) :
    Option ExtractedParameter :=
  stored.reverse.find? (fun e => e.param_name = n)

/-- Merge of one freshly extracted parameter against the stored set (see
`extractParametersWithDefaults`). -/
def reconcileOne (existing : List ExtractedParameter)
    (param : ExtractedParameter) : ExtractedParameter :=
  match lookupStored existing param.param_name with
  | some e =>
    { param with
      param_type := e.param_type
      data_type := e.data_type
      required := e.required
      default_value := e.default_value
      validation_rule := e.validation_rule
      description := jsOrStr e.description param.description }
  | none => param

/-- `extractParametersWithDefaults` (the reconcile step): re-extract from
the SQL text and, for names already stored, keep the stored
location/type/required/default/validation, with the stored description
kept only when truthy. -/
def extractParametersWithDefaults (sql : String)
    (existing : List ExtractedParameter) : List ExtractedParameter :=
  (extractParameters sql).map (reconcileOne existing)

/- ------------------------------------------------------------------
ValidationService (src/backend/src/services/schemaIntrospector.ts,
second document: validationService)
------------------------------------------------------------------ -/

/-- `sanitizeInput`: trims string values, passes everything else through. -/
def sanitizeInput : JsVal → JsVal
  | .s v => .s (strTrim v)
  | v => v

/-- Sanitization pass of `validateAndSanitizeRequest`: every value of the
bag through `sanitizeInput`, keys untouched. -/
def sanitizeBag (bag : JsBag) : JsBag :=
  bag.map (fun kv => (kv.1, sanitizeInput kv.2))

/-- Joi type acceptance for a stored `data_type` (lower-cased by
`buildJoiSchema`).  `number` accepts numbers and numeric strings
(numeric strings are modelled as integer literals), `boolean` accepts
booleans and the strings true/false, `date` accepts numbers and is
modelled as accepting every string, everything else is the string rule,
which accepts exactly strings.  The metadata schema constrains
`data_type` to string/number/boolean/date, so the object/array branches
of `buildJoiSchema` are unreachable and not modelled. -/
def typeAccepts (dataType : String) (v : JsVal) : Bool :=
  let t := strToLower dataType
  if t = "number" then
    match v with
    | .n _ => true
    | .s s => (parseIntStr s).isSome
    | .b _ => false
  else if t = "boolean" then
    match v with
    | .b _ => true
    | .s s => s = "true" || s = "false"
    | .n _ => false
  else if t = "date" then
    match v with
    | .s _ => true
    | .n _ => true
    | .b _ => false
  else
    match v with
    | .s _ => true
    | _ => false

/-- Error contribution of one parameter definition against the bag (see
`joiErrors`). -/
def joiStep (bag : JsBag) (errs : List (String × String))
    (p : ExtractedParameter) : List (String × String) :=
  match jsLookup bag p.param_name with
  | none =>
    if p.required = 1 then errs ++ [(p.param_name, "is required")] else errs
  | some v =>
    if typeAccepts p.data_type v then errs
    else errs ++ [(p.param_name, "type mismatch")]

/-- The field errors Joi reports for the schema `buildJoiSchema` builds,
with `abortEarly: false` (every failing parameter contributes an entry,
keyed by the parameter name) and `stripUnknown: true` (keys outside the
parameter list contribute no error).  A required parameter that is
absent errors regardless of a stored default (Joi ignores defaults on
required keys); an optional absent parameter never errors.  Decoding of
the custom `validation_rule` constraints (min/max/pattern/enum/format)
is outside the modelled slice; the claims settled here do not depend on
it. -/
def joiErrors (defs : List ExtractedParameter) (bag : JsBag) :
    List (String × String) :=
  defs.foldl (joiStep bag) []

/-- Result shape of `validateRequest`. -/
structure ValidationResult where
  valid : Bool
  errors : Option (List (String × String))
deriving Repr, DecidableEq

/-- `validateRequest`: an endpoint with no stored parameter definitions is
valid immediately; otherwise the Joi schema is validated and all field
errors are returned.  The stripped value Joi produces is discarded. -/
def validateRequest (defs : List ExtractedParameter) (bag : JsBag) :
    ValidationResult :=
  if defs.isEmpty then ⟨true, none⟩
  else if (joiErrors defs bag).isEmpty then ⟨true, none⟩
  else ⟨false, some (joiErrors defs bag)⟩

/-- Result shape of `validateAndSanitizeRequest`. -/
structure VSResult where
  valid : Bool
  sanitizedParams : Option JsBag
  errors : Option (List (String × String))
deriving Repr, DecidableEq

/-- `validateAndSanitizeRequest`: trims string values, validates the
trimmed bag, and on success returns that trimmed bag itself — the
unknown keys Joi stripped inside validation are not removed from it. -/
def validateAndSanitizeRequest (defs : List ExtractedParameter)
    (bag : JsBag) : VSResult :=
  if (validateRequest defs (sanitizeBag bag)).valid then
    ⟨true, some (sanitizeBag bag), none⟩
  else ⟨false, none, (validateRequest defs (sanitizeBag bag)).errors⟩

/- ------------------------------------------------------------------
SQL rendering loop (src/unnamed/part_007, router.all handler)
------------------------------------------------------------------ -/

/-- The identifier-style allow-list substituted as raw literals. -/
def directReplaceParams : List String := ["order_by", "order", "limit"]

/-- The building of one placeholder token from a key. -/
def placeholderOf (k : String) : String :=
  "\x7b\x7b" ++ k ++ "\x7d\x7d"

/-- The rendering loop over the sanitized bag entries in order: a `search`
value is quote-escaped, wrapped in percent signs and quotes, and
substituted through the JS replacement semantics; an allow-listed key
is substituted likewise; every other key whose placeholder occurs in
the current SQL text becomes a `?` bound-parameter placeholder with its
value appended to the bound list; entries whose placeholder does not
occur are skipped.  Substituted values pass through `jsReplaceAll`, so
dollar sequences in them are expanded at each match site. -/
def renderSqlLoop : String → List JsVal → JsBag → String × List JsVal
  | sql, qp, [] => (sql, qp)
  | sql, qp, (k, v) :: rest =>
    if strContains sql (placeholderOf k) then
      if k = "search" then
        renderSqlLoop (jsReplaceAll sql (placeholderOf k)
          (squote ++ "%" ++
            jsReplaceAll (jsString v) squote (squote ++ squote) ++
            "%" ++ squote)) qp rest
      else if directReplaceParams.contains k then
        renderSqlLoop (jsReplaceAll sql (placeholderOf k) (jsString v)) qp rest
      else
        renderSqlLoop (jsReplaceAll sql (placeholderOf k) "?") (qp ++ [v]) rest
    else
      renderSqlLoop sql qp rest

/-- SQL rendering of an endpoint's template against a sanitized bag:
returns the rendered text and the bound-value list. -/
def renderSql (sql : String) (bag : JsBag) : String × List JsVal :=
  renderSqlLoop sql [] bag

/- ------------------------------------------------------------------
Row-cap injection (src/unnamed/part_007 lines 281-307, duplicated in
src/unnamed/part_008 lines 279-305)
------------------------------------------------------------------ -/

/-- `sql.replace(/^SELECT\s+/i, 'SELECT TOP 1000 ')`: when the raw
(untrimmed) text begins with the six letters SELECT, case-insensitive,
followed by at least one whitespace character, that prefix including
the whitespace run is replaced; otherwise the text is unchanged. -/
def mssqlTopReplace (sql : String) : String :=
  if (sql.toList.take 6).map Char.toUpper = "SELECT".toList then
    match sql.toList.drop 6 with
    | c :: cs2 =>
      if c.isWhitespace then
        "SELECT TOP 1000 " ++ String.mk ((c :: cs2).dropWhile Char.isWhitespace)
      else sql
    | [] => sql
  else sql

/-- The dialect-specific 1000-row cap of the execution path: applied only
when the trimmed upper-cased text starts with SELECT; MySQL/PostgreSQL
insert ` LIMIT 1000` before the last semicolon (or append) unless the
upper-cased text contains ` LIMIT ` or ends with ` LIMIT`; MSSQL
rewrites the leading SELECT of the raw text unless ` TOP ` occurs;
Oracle inserts ` FETCH FIRST 1000 ROWS ONLY` unless ` ROWNUM ` or
` FETCH FIRST ` occurs. -/
def applyRowCap (dbType sql : String) : String :=
  if strStartsWith (strToUpper (strTrim sql)) "SELECT" then
    if dbType = "mysql" || dbType = "postgresql" then
      if !(strContains (strToUpper (strTrim sql)) " LIMIT ") &&
          !(strEndsWith (strToUpper (strTrim sql)) " LIMIT") then
        insertBeforeLastSemicolon sql " LIMIT 1000"
      else sql
    else if dbType = "mssql" then
      if !(strContains (strToUpper (strTrim sql)) " TOP ") then
        mssqlTopReplace sql
      else sql
    else if dbType = "oracle" then
      if !(strContains (strToUpper (strTrim sql)) " ROWNUM ") &&
          !(strContains (strToUpper (strTrim sql)) " FETCH FIRST ") then
        insertBeforeLastSemicolon sql " FETCH FIRST 1000 ROWS ONLY"
      else sql
    else sql
  else sql

/- ------------------------------------------------------------------
Route matching: findMatchingAPI (src/unnamed/part_007 lines 50-105)
------------------------------------------------------------------ -/

/-- One joined row of the `apis LEFT JOIN datasources` query the
orchestrator works with (the columns the handler reads). -/
structure ApiRow where
  id : Nat
  path : String
  method : String
  status : String
  require_auth : Nat
  sql_template : String
  datasource_id : Nat
  ds_status : String
  ds_type : String
deriving Repr, DecidableEq

/-- `p.split('/').filter(Boolean)`: path segments with empties dropped. -/
def segsOf (p : String) : List String :=
  ((splitCharAux '/' p.toList).map String.mk).filter (fun s => s ≠ "")

/-- Whether an endpoint path contains a `:param` segment. -/
def hasPathParams (a : ApiRow) : Bool :=
  (segsOf a.path).any (fun s => strStartsWith s ":")

/-- Segment-by-segment comparison of an endpoint's path segments against
the request's: a `:name` segment binds positionally, a fixed segment
must be equal; the bindings are returned in segment order. -/
def matchSegments : List String → List String → Option (List (String × String))
  | [], [] => some []
  | a :: as, r :: rs =>
    if strStartsWith a ":" then
      match matchSegments as rs with
      | some binds => some ((String.mk (a.toList.drop 1), r) :: binds)
      | none => none
    else if a = r then matchSegments as rs else none
  | _, _ => none

/-- First endpoint in the list whose every segment matches the request
segments, with its bindings. -/
def firstMatch : List ApiRow → List String → Option (ApiRow × List (String × String))
  | [], _ => none
  | a :: rest, reqSegs =>
    match matchSegments (segsOf a.path) reqSegs with
    | some binds => some (a, binds)
    | none => firstMatch rest reqSegs

/-- The `WHERE a.method = ? AND a.status = 'published'` filter of the
route-matching query. -/
def apiEligible (apis : List ApiRow) (method : String) : List ApiRow :=
  apis.filter (fun a => a.method = method && a.status = "published")

/-- The same-segment-count candidates of a request. -/
def apiCandidates (apis : List ApiRow) (path method : String) : List ApiRow :=
  (apiEligible apis method).filter
    (fun a => (segsOf a.path).length = (segsOf path).length)

/-- The candidate order the handler scans: all fixed paths first, then all
parameterized paths, each group in table order. -/
def orderedCandidates (apis : List ApiRow) (path method : String) : List ApiRow :=
  (apiCandidates apis path method).filter (fun a => !hasPathParams a)
    ++ (apiCandidates apis path method).filter (fun a => hasPathParams a)

/-- `findMatchingAPI`: published endpoints of the request's verb with the
request's segment count, fixed paths tried before parameterized ones,
first full segment match wins. -/
def findMatchingAPI (apis : List ApiRow) (path method : String) :
    Option (ApiRow × List (String × String)) :=
  firstMatch (orderedCandidates apis path method) (segsOf path)

/- ------------------------------------------------------------------
Daily usage aggregate upserts (api_call_stats, src/unnamed/part_007)
------------------------------------------------------------------ -/

/-- One `api_call_stats` row for a fixed (api_id, date) key.  Counts are
SQLite INTEGERs; `avg_response_time` is a REAL column, modelled
exactly as a rational. -/
structure StatsRow where
  call_count : Int
  success_count : Int
  failure_count : Int
  avg_response_time : ℚ
  last_called_at : String
deriving Repr, DecidableEq

/-- The success-path upsert (part_007 lines 324-332): insert a fresh row
with count 1 and average equal to the duration, or update the existing
row.  SQLite evaluates every SET right-hand side against the pre-update
row, so the `call_count` in the average expression is the old count:
the stored average becomes `(old_avg * (old_count - 1) + dur) / old_count`
(rows reached here always have `call_count ≥ 1`). -/
def successStatsUpsert (row : Option StatsRow) (dur : Int) (now : String) :
    StatsRow :=
  match row with
  | none => ⟨1, 1, 0, (dur : ℚ), now⟩
  | some r =>
    ⟨r.call_count + 1, r.success_count + 1, r.failure_count,
      (r.avg_response_time * ((r.call_count : ℚ) - 1) + (dur : ℚ))
        / (r.call_count : ℚ), now⟩

/-- The failure-path upsert used by the 503/401/403/400/500 paths: insert
a fresh row with a failure counted and average 0, or bump `call_count`
and `failure_count` and refresh `last_called_at` on the existing row,
touching nothing else. -/
def failureStatsUpsert (row : Option StatsRow) (now : String) : StatsRow :=
  match row with
  | none => ⟨1, 0, 1, 0, now⟩
  | some r =>
    ⟨r.call_count + 1, r.success_count, r.failure_count + 1,
      r.avg_response_time, now⟩

/-- The running-average recurrence the specification prescribes for a
successful request against an existing row:
`new_avg = (old_avg * old_count + new_duration) / (old_count + 1)`.
Stated from the spec's words, for comparison against
`successStatsUpsert`. -/
def claimedNewAvg (oldAvg : ℚ) (oldCount : Int) (dur : Int) : ℚ :=
  (oldAvg * (oldCount : ℚ) + (dur : ℚ)) / ((oldCount : ℚ) + 1)

/- ------------------------------------------------------------------
Connection pool registry (src/backend/src/services/databasePool.ts)
------------------------------------------------------------------ -/

/-- The registered pool keys of the four per-dialect maps of
`DatabasePool`. -/
structure PoolState where
  mysqlPools : List String
  pgPools : List String
  mssqlPools : List String
  oraclePools : List String
deriving Repr, DecidableEq

/-- A datasource configuration as passed to `createPool` (`type` is a
runtime string; values outside the four dialects hit the default
branch). -/
structure DbConfig where
  host : String
  port : Nat
  user : String
  password : String
  database : String
  type : String
deriving Repr, DecidableEq

/-- The pool keys registered for a dialect. -/
def poolsFor (st : PoolState) (dbType : String) : List String :=
  if dbType = "mysql" then st.mysqlPools
  else if dbType = "postgresql" then st.pgPools
  else if dbType = "mssql" then st.mssqlPools
  else if dbType = "oracle" then st.oraclePools
  else []

/-- Driver-level outcomes of eager pool construction.  MySQL's
`mysql.createPool` and PostgreSQL's `new pg.Pool` are lazy (they
construct without connecting, and the PostgreSQL session-init runs in
an on-connect handler), so those creators cannot fail here; but
`createMSSQLPool` eagerly awaits `mssql.connect` and then runs its
session-init query, and `createOraclePool` eagerly awaits
`oracledb.createPool` (its `initClient` throw is swallowed by a
try/catch), all between the duplicate check and the map registration.
The two flags say whether those eager driver steps succeed; their
thrown errors propagate to the caller (message abstracted). -/
structure DriverEnv where
  mssqlPoolOk : Bool
  oraclePoolOk : Bool
deriving Repr, DecidableEq

/-- `createPool`: dispatches on the dialect; each per-dialect creator
throws when its map already holds the key, then (for MSSQL and Oracle)
performs the eager driver connect / session-init, whose failure throws
without registering, and otherwise registers the new pool under the
key; an unsupported dialect throws. -/
def createPool (drv : DriverEnv) (config : DbConfig) (poolName : String)
    (st : PoolState) : Except String PoolState :=
  if config.type = "mysql" then
    if st.mysqlPools.contains poolName then
      .error ("MySQL pool " ++ poolName ++ " already exists")
    else .ok { st with mysqlPools := st.mysqlPools ++ [poolName] }
  else if config.type = "postgresql" then
    if st.pgPools.contains poolName then
      .error ("PostgreSQL pool " ++ poolName ++ " already exists")
    else .ok { st with pgPools := st.pgPools ++ [poolName] }
  else if config.type = "mssql" then
    if st.mssqlPools.contains poolName then
      .error ("MSSQL pool " ++ poolName ++ " already exists")
    else if !drv.mssqlPoolOk then
      .error "MSSQL driver connection or session initialization failed"
    else .ok { st with mssqlPools := st.mssqlPools ++ [poolName] }
  else if config.type = "oracle" then
    if st.oraclePools.contains poolName then
      .error ("Oracle pool " ++ poolName ++ " already exists")
    else if !drv.oraclePoolOk then
      .error "Oracle driver pool creation failed"
    else .ok { st with oraclePools := st.oraclePools ++ [poolName] }
  else .error ("Unsupported database type: " ++ config.type)

/- ------------------------------------------------------------------
Execution orchestrator: router.all('/:path(*)') (src/unnamed/part_007)
------------------------------------------------------------------ -/

/-- Parsed `token_permissions` of the acting principal. -/
structure TokenPerms where
  typ : String
  apis : List Nat
deriving Repr, DecidableEq

/-- `checkApiPermission`: requires a parsed permission object of type
`categories` with a non-empty api list containing the endpoint id. -/
def checkApiPermission (tp : Option TokenPerms) (apiId : Nat) : Bool :=
  match tp with
  | none => false
  | some t =>
    if t.typ ≠ "categories" then false
    else if t.apis.isEmpty then false
    else t.apis.contains apiId

/-- One Access Log Entry write, projected to the fields the claims
mention. -/
structure AccessLogEffect where
  api_id : Nat
  response_status : Nat
  outcome : String
deriving Repr, DecidableEq

/-- One Daily Usage Aggregate upsert issued by the handler: the
success-path upsert carries the measured duration, the failure-path
upsert only the endpoint id. -/
inductive StatsOp where
  | success (api_id : Nat) (dur : Int)
  | failure (api_id : Nat)
deriving Repr, DecidableEq

/-- The observable outcome of one handler run: HTTP status, the access
log writes, the usage upserts, and the SQL text with bound values
handed to `executeQuery` when execution was attempted. -/
structure HandlerResult where
  status : Nat
  logs : List AccessLogEffect
  stats : List StatsOp
  executed : Option (String × List JsVal)
deriving Repr, DecidableEq

/-- The per-request environment of one handler run: the `apis` table
join rows, the raw `:path(*)` parameter and upper-cased method, the
authentication context, the query/body bags, the stored parameter
definitions per endpoint id, and whether `executeQuery` succeeds
(`execOk`) together with the measured duration. -/
structure Env where
  apis : List ApiRow
  rawPath : String
  method : String
  userId : Option Nat
  tokenPermissions : Option TokenPerms
  queryBag : JsBag
  bodyBag : JsBag
  paramsFor : Nat → List ExtractedParameter
  execOk : Bool
  execDur : Int

/-- JS falsiness of `req.userId` (absent, or the number 0). -/
def userIdFalsy (userId : Option Nat) : Bool :=
  match userId with
  | none => true
  | some u => u = 0

/-- `'/' + req.params.path`: the leading slash the handler prepends when
missing. -/
def normalizePath (rawPath : String) : String :=
  if strStartsWith rawPath "/" then rawPath else "/" ++ rawPath

/-- The catch-block re-derivation of the endpoint:
`SELECT id FROM apis WHERE path = ? AND method = ?` with the raw path
prefixed by a slash — an exact path equality without status filter or
`:param` matching. -/
def rederiveApis (apis : List ApiRow) (rawPath method : String) : List ApiRow :=
  apis.filter (fun a => a.path = "/" ++ rawPath && a.method = method)

/-- The merged request parameter bag
`{ ...req.params, ...req.query, ...req.body }`: `req.params` holds the
raw `path` route parameter and the path bindings assigned over it, and
is spread first (so query and body keys override it). -/
def requestAllParams (env : Env) (pathParams : List (String × String)) : JsBag :=
  let paramsObj := jsMerge [("path", JsVal.s env.rawPath)]
    (pathParams.map (fun b => (b.1, JsVal.s b.2)))
  jsMerge (jsMerge paramsObj env.queryBag) env.bodyBag

/-- The validation outcome of the matched request. -/
def requestValidation (env : Env) (api : ApiRow)
    (pathParams : List (String × String)) : VSResult :=
  validateAndSanitizeRequest (env.paramsFor api.id) (requestAllParams env pathParams)

/-- The bag rendering works on: the sanitized bag, falling back to the
merged bag (`validationResult.sanitizedParams || allParams`). -/
def requestSanitized (env : Env) (api : ApiRow)
    (pathParams : List (String × String)) : JsBag :=
  (requestValidation env api pathParams).sanitizedParams.getD
    (requestAllParams env pathParams)

/-- The SQL text and bound values handed to `executeQuery`: the rendered
template with the dialect row cap applied. -/
def requestExecuted (env : Env) (api : ApiRow)
    (pathParams : List (String × String)) : String × List JsVal :=
  let rendered := renderSql api.sql_template (requestSanitized env api pathParams)
  (applyRowCap api.ds_type rendered.1, rendered.2)

/-- The handler body after a successful route match: the datasource
gate, the authentication and permission gates, validation, rendering,
row capping and execution, each writing its log entry and usage upsert;
a thrown execution error lands in the catch block, which logs only when
the exact path+verb re-derivation finds a row. -/
def afterMatch (env : Env) (api : ApiRow)
    (pathParams : List (String × String)) : HandlerResult :=
  if api.ds_status ≠ "active" then
    ⟨503, [⟨api.id, 503, "failure"⟩], [.failure api.id], none⟩
  else if api.require_auth = 1 && userIdFalsy env.userId then
    ⟨401, [⟨api.id, 401, "failure"⟩], [.failure api.id], none⟩
  else if api.require_auth = 1 && !(checkApiPermission env.tokenPermissions api.id) then
    ⟨403, [⟨api.id, 403, "failure"⟩], [.failure api.id], none⟩
  else if !(requestValidation env api pathParams).valid then
    ⟨400, [⟨api.id, 400, "failure"⟩], [.failure api.id], none⟩
  else if env.execOk then
    ⟨200, [⟨api.id, 200, "success"⟩], [.success api.id env.execDur],
      some (requestExecuted env api pathParams)⟩
  else
    match rederiveApis env.apis env.rawPath env.method with
    | [] => ⟨500, [], [], some (requestExecuted env api pathParams)⟩
    | a :: _ =>
      ⟨500, [⟨a.id, 500, "failure"⟩], [.failure a.id],
        some (requestExecuted env api pathParams)⟩

/-- One full run of the wildcard execution handler. -/
def handleRequest (env : Env) : HandlerResult :=
  match findMatchingAPI env.apis (normalizePath env.rawPath) env.method with
  | none => ⟨404, [], [], none⟩
  | some (api, pathParams) => afterMatch env api pathParams

/- ------------------------------------------------------------------
Concrete fixtures used by witnesses and counterexamples
------------------------------------------------------------------ -/

/-- A published, auth-free endpoint with a parameterized path, backed by
an active MySQL datasource. -/
def paramIdApi : ApiRow :=
  { id := 1, path := "/users/:id", method := "GET", status := "published",
    require_auth := 0,
    sql_template := "SELECT * FROM users WHERE id = \x7b\x7bid\x7d\x7d",
    datasource_id := 7, ds_status := "active", ds_type := "mysql" }

/-- A request to the parameterized endpoint whose query execution
throws. -/
def env500 : Env :=
  { apis := [paramIdApi], rawPath := "users/42", method := "GET",
    userId := none, tokenPermissions := none, queryBag := [], bodyBag := [],
    paramsFor := fun _ => [], execOk := false, execDur := 5 }

/-- The same request with a succeeding query execution. -/
def env200 : Env := { env500 with execOk := true }

/-- The same request against the datasource marked inactive. -/
def env503 : Env :=
  { env500 with apis := [{ paramIdApi with ds_status := "inactive" }] }

/- ------------------------------------------------------------------
Claim theorems
------------------------------------------------------------------ -/

/-- Claim C1 (code_bug evaluation).  On a successful request against an
existing (endpoint id, day) row with persisted count 1 and average 10,
and a new duration of 20, the success upsert stores the average 20:
SQLite evaluates the SET expressions against the pre-update row, so the
`(avg_response_time * (call_count - 1) + ?) / call_count` expression
divides by the old count while weighting the old average by
`old_count - 1`.  The specified recurrence
`(old_avg * old_count + new_duration) / (old_count + 1)` yields 15, so
the stored average differs from the claimed one. -/
theorem successUpsert_avg_diverges :
    (successStatsUpsert (some ⟨1, 1, 0, 10, "d1"⟩) 20 "d2").avg_response_time = 20 ∧
    claimedNewAvg 10 1 20 = 15 ∧
    (successStatsUpsert (some ⟨1, 1, 0, 10, "d1"⟩) 20 "d2").avg_response_time ≠
      claimedNewAvg 10 1 20 := by
  refine ⟨?_, ?_, ?_⟩ <;> norm_num [successStatsUpsert, claimedNewAvg]

/-- Exhaustive shape of the handler body after a successful route match:
either a 200 success with one success log and one success upsert, or a
failing status with one failure log and one failure upsert (a 500 only
when the exact path+verb re-derivation is non-empty), or a 500 with no
log and no upsert when that re-derivation is empty. -/
theorem afterMatch_shape (env : Env) (api : ApiRow)
    (pp : List (String × String)) :
    ((afterMatch env api pp).status = 200 ∧
      (afterMatch env api pp).logs = [⟨api.id, 200, "success"⟩] ∧
      (afterMatch env api pp).stats = [StatsOp.success api.id env.execDur]) ∨
    (∃ s i, (s = 503 ∨ s = 401 ∨ s = 403 ∨ s = 400 ∨ s = 500) ∧
      (afterMatch env api pp).status = s ∧
      (afterMatch env api pp).logs = [⟨i, s, "failure"⟩] ∧
      (afterMatch env api pp).stats = [StatsOp.failure i] ∧
      (s = 500 → rederiveApis env.apis env.rawPath env.method ≠ [])) ∨
    ((afterMatch env api pp).status = 500 ∧
      (afterMatch env api pp).logs = [] ∧
      (afterMatch env api pp).stats = [] ∧
      rederiveApis env.apis env.rawPath env.method = []) := by
  by_cases h1 : api.ds_status ≠ "active"
  · have hr : afterMatch env api pp =
        ⟨503, [⟨api.id, 503, "failure"⟩], [.failure api.id], none⟩ := by
      unfold afterMatch; rw [if_pos h1]
    rw [hr]
    exact Or.inr (Or.inl ⟨503, api.id, Or.inl rfl, rfl, rfl, rfl,
      fun hc => absurd hc (by decide)⟩)
  · by_cases h2 : (api.require_auth = 1 && userIdFalsy env.userId) = true
    · have hr : afterMatch env api pp =
          ⟨401, [⟨api.id, 401, "failure"⟩], [.failure api.id], none⟩ := by
        unfold afterMatch; rw [if_neg h1, if_pos h2]
      rw [hr]
      exact Or.inr (Or.inl ⟨401, api.id, Or.inr (Or.inl rfl), rfl, rfl, rfl,
        fun hc => absurd hc (by decide)⟩)
    · by_cases h3 :
        (api.require_auth = 1 && !(checkApiPermission env.tokenPermissions api.id)) = true
      · have hr : afterMatch env api pp =
            ⟨403, [⟨api.id, 403, "failure"⟩], [.failure api.id], none⟩ := by
          unfold afterMatch; rw [if_neg h1, if_neg h2, if_pos h3]
        rw [hr]
        exact Or.inr (Or.inl ⟨403, api.id, Or.inr (Or.inr (Or.inl rfl)), rfl,
          rfl, rfl, fun hc => absurd hc (by decide)⟩)
      · by_cases h4 : (!(requestValidation env api pp).valid) = true
        · have hr : afterMatch env api pp =
              ⟨400, [⟨api.id, 400, "failure"⟩], [.failure api.id], none⟩ := by
            unfold afterMatch; rw [if_neg h1, if_neg h2, if_neg h3, if_pos h4]
          rw [hr]
          exact Or.inr (Or.inl ⟨400, api.id,
            Or.inr (Or.inr (Or.inr (Or.inl rfl))), rfl, rfl, rfl,
            fun hc => absurd hc (by decide)⟩)
        · by_cases h5 : env.execOk = true
          · have hr : afterMatch env api pp =
                ⟨200, [⟨api.id, 200, "success"⟩],
                  [.success api.id env.execDur],
                  some (requestExecuted env api pp)⟩ := by
              unfold afterMatch
              rw [if_neg h1, if_neg h2, if_neg h3, if_neg h4, if_pos h5]
            rw [hr]
            exact Or.inl ⟨rfl, rfl, rfl⟩
          · cases hred : rederiveApis env.apis env.rawPath env.method with
            | nil =>
              have hr : afterMatch env api pp =
                  ⟨500, [], [], some (requestExecuted env api pp)⟩ := by
                unfold afterMatch
                rw [if_neg h1, if_neg h2, if_neg h3, if_neg h4, if_neg h5, hred]
              rw [hr]
              exact Or.inr (Or.inr ⟨rfl, rfl, rfl, rfl⟩)
            | cons a rest =>
              have hr : afterMatch env api pp =
                  ⟨500, [⟨a.id, 500, "failure"⟩], [.failure a.id],
                    some (requestExecuted env api pp)⟩ := by
                unfold afterMatch
                rw [if_neg h1, if_neg h2, if_neg h3, if_neg h4, if_neg h5, hred]
              rw [hr]
              exact Or.inr (Or.inl ⟨500, a.id,
                Or.inr (Or.inr (Or.inr (Or.inr rfl))), rfl, rfl, rfl,
                fun hx => by simp⟩)

/-- Route miss gives the bare 404 result. -/
theorem handleRequest_404 (env : Env)
    (h : findMatchingAPI env.apis (normalizePath env.rawPath) env.method = none) :
    handleRequest env = ⟨404, [], [], none⟩ := by
  unfold handleRequest; rw [h]

/-- Route hit hands over to `afterMatch`. -/
theorem handleRequest_match (env : Env) (api : ApiRow)
    (pp : List (String × String))
    (h : findMatchingAPI env.apis (normalizePath env.rawPath) env.method =
      some (api, pp)) :
    handleRequest env = afterMatch env api pp := by
  unfold handleRequest; rw [h]

/-- Claim C10: every failure-outcome upsert applied to an existing
(endpoint id, day) row leaves `avg_response_time` and `success_count`
unchanged and only increments `call_count` and `failure_count` and
refreshes `last_called_at`; moreover every usage upsert the handler
issues on a non-200 outcome is a failure-path upsert, so the running
average is influenced solely by successful requests. -/
theorem failureUpsert_frame :
    (∀ (r : StatsRow) (now : String),
      failureStatsUpsert (some r) now =
        ⟨r.call_count + 1, r.success_count, r.failure_count + 1,
          r.avg_response_time, now⟩) ∧
    (∀ env : Env, (handleRequest env).status ≠ 200 →
      ∀ op ∈ (handleRequest env).stats, ∃ i, op = StatsOp.failure i) := by
  constructor
  · intro r now; rfl
  · intro env hne op hop
    cases hfind : findMatchingAPI env.apis (normalizePath env.rawPath) env.method with
    | none => rw [handleRequest_404 env hfind] at hop; simp at hop
    | some r =>
      obtain ⟨api, pp⟩ := r
      rw [handleRequest_match env api pp hfind] at hne hop
      rcases afterMatch_shape env api pp with h200 | hfail | hnone
      · exact absurd h200.1 hne
      · obtain ⟨s, i, _, _, _, hstats, _⟩ := hfail
        rw [hstats] at hop; simp at hop; exact ⟨i, hop⟩
      · rw [hnone.2.2.1] at hop; simp at hop

/-- Claim C5 (counterexample).  A request to the published endpoint
`GET /users/:id` whose query execution throws ends as a 500 outcome,
yet writes no Access Log Entry and performs no usage upsert: the catch
block re-derives the endpoint by exact path equality against
`/users/42`, which matches no stored row, and skips all telemetry. -/
theorem unlogged500_counterexample :
    (handleRequest env500).status = 500 ∧
    (handleRequest env500).logs = [] ∧
    (handleRequest env500).stats = [] := by
  refine ⟨rfl, rfl, rfl⟩

/-- Claim C5 (amended): every terminal outcome except a bare 404 route
miss and except a 500 outcome whose exact path+verb re-derivation finds
no stored endpoint row writes exactly one Access Log Entry and performs
exactly one usage upsert; a 500 outcome with an empty re-derivation
writes neither. -/
theorem telemetry_per_outcome (env : Env) :
    ((handleRequest env).status = 404 →
      (handleRequest env).logs = [] ∧ (handleRequest env).stats = []) ∧
    (((handleRequest env).status = 503 ∨ (handleRequest env).status = 401 ∨
      (handleRequest env).status = 403 ∨ (handleRequest env).status = 400 ∨
      (handleRequest env).status = 200) →
      (handleRequest env).logs.length = 1 ∧
      (handleRequest env).stats.length = 1) ∧
    ((handleRequest env).status = 500 →
      (rederiveApis env.apis env.rawPath env.method ≠ [] →
        (handleRequest env).logs.length = 1 ∧
        (handleRequest env).stats.length = 1) ∧
      (rederiveApis env.apis env.rawPath env.method = [] →
        (handleRequest env).logs = [] ∧ (handleRequest env).stats = [])) := by
  cases hfind : findMatchingAPI env.apis (normalizePath env.rawPath) env.method with
  | none =>
    rw [handleRequest_404 env hfind]
    refine ⟨fun _ => ⟨rfl, rfl⟩, fun hor => ?_, fun h5 => ?_⟩
    · rcases hor with h | h | h | h | h <;> exact absurd h (by decide)
    · exact absurd h5 (by decide)
  | some r =>
    obtain ⟨api, pp⟩ := r
    rw [handleRequest_match env api pp hfind]
    rcases afterMatch_shape env api pp with ⟨hs, hl, hst⟩ | hfail | ⟨hs, hl, hst, hred⟩
    · refine ⟨fun h404 => ?_, fun _ => ?_, fun h5 => ?_⟩
      · rw [hs] at h404; exact absurd h404 (by decide)
      · rw [hl, hst]; exact ⟨rfl, rfl⟩
      · rw [hs] at h5; exact absurd h5 (by decide)
    · obtain ⟨s, i, hsor, hs, hl, hst, h500imp⟩ := hfail
      refine ⟨fun h404 => ?_, fun _ => ?_, fun h5 => ?_⟩
      · rw [hs] at h404
        rcases hsor with h | h | h | h | h <;> (subst h404; exact absurd h (by decide))
      · rw [hl, hst]; exact ⟨rfl, rfl⟩
      · rw [hs] at h5
        refine ⟨fun _ => ?_, fun hredeq => ?_⟩
        · rw [hl, hst]; exact ⟨rfl, rfl⟩
        · exact absurd hredeq (h500imp (by rw [← h5]))
    · refine ⟨fun h404 => ?_, fun hor => ?_, fun _ => ?_⟩
      · rw [hs] at h404; exact absurd h404 (by decide)
      · rcases hor with h | h | h | h | h <;>
          (rw [hs] at h; exact absurd h (by decide))
      · exact ⟨fun hne => absurd hred hne, fun _ => ⟨hl, hst⟩⟩

/-- Claim C5 (witness): the 503 outcome of `env503` writes one log entry
and one usage upsert. -/
theorem telemetry_per_outcome_witness :
    (handleRequest env503).logs.length = 1 ∧
    (handleRequest env503).stats.length = 1 :=
  (telemetry_per_outcome env503).2.1 (Or.inl (by decide))

/-- Emptiness of the stored parameter list short-circuits validation. -/
theorem validateAndSanitizeRequest_nil (bag : JsBag) :
    validateAndSanitizeRequest [] bag = ⟨true, some (sanitizeBag bag), none⟩ :=
  rfl

/-- With no stored parameter definitions for the matched endpoint the
handler can never take the 400 branch. -/
theorem afterMatch_ne_400_of_nil (env : Env) (api : ApiRow)
    (pp : List (String × String)) (hdefs : env.paramsFor api.id = []) :
    (afterMatch env api pp).status ≠ 400 := by
  have hv : (requestValidation env api pp).valid = true := by
    unfold requestValidation
    rw [hdefs, validateAndSanitizeRequest_nil]
  by_cases h1 : api.ds_status ≠ "active"
  · unfold afterMatch; rw [if_pos h1]; simp
  · by_cases h2 : (api.require_auth = 1 && userIdFalsy env.userId) = true
    · unfold afterMatch; rw [if_neg h1, if_pos h2]; simp
    · by_cases h3 :
        (api.require_auth = 1 && !(checkApiPermission env.tokenPermissions api.id)) = true
      · unfold afterMatch; rw [if_neg h1, if_neg h2, if_pos h3]; simp
      · have h4 : (!(requestValidation env api pp).valid) = true → False := by
          rw [hv]; decide
        by_cases h5 : env.execOk = true
        · unfold afterMatch
          rw [if_neg h1, if_neg h2, if_neg h3, if_neg h4, if_pos h5]; simp
        · unfold afterMatch
          rw [if_neg h1, if_neg h2, if_neg h3, if_neg h4, if_neg h5]
          cases hred : rederiveApis env.apis env.rawPath env.method with
          | nil => simp
          | cons a rest => simp

/-- Claim C9: for an endpoint whose stored Parameter Definition list is
empty, `validateAndSanitizeRequest` returns valid with the sanitized
bag equal to the input bag with string values trimmed, for every input
bag, with no type, required or unknown-key processing; and on the
execution path such an endpoint can never produce a 400 validation
outcome (no SQL-placeholder presence check is performed there). -/
theorem emptyDefs_validation :
    (∀ bag : JsBag, validateAndSanitizeRequest [] bag =
      ⟨true, some (sanitizeBag bag), none⟩) ∧
    (∀ env : Env, (∀ apiId, env.paramsFor apiId = []) →
      (handleRequest env).status ≠ 400) := by
  refine ⟨validateAndSanitizeRequest_nil, fun env h => ?_⟩
  cases hfind : findMatchingAPI env.apis (normalizePath env.rawPath) env.method with
  | none => rw [handleRequest_404 env hfind]; decide
  | some r =>
    obtain ⟨api, pp⟩ := r
    rw [handleRequest_match env api pp hfind]
    exact afterMatch_ne_400_of_nil env api pp (h api.id)

/-- Claim C9 (witness): a concrete bag passes through trimmed and
untouched, and the concrete request of `env200` does not end in 400. -/
theorem emptyDefs_validation_witness :
    validateAndSanitizeRequest [] [("a", JsVal.s " x ")] =
      ⟨true, some (sanitizeBag [("a", JsVal.s " x ")]), none⟩ ∧
    (handleRequest env200).status ≠ 400 :=
  ⟨emptyDefs_validation.1 [("a", JsVal.s " x ")],
    emptyDefs_validation.2 env200 (fun _ => rfl)⟩

/-- Accumulated errors survive each Joi step. -/
theorem joiStep_mem (bag : JsBag) (errs : List (String × String))
    (p : ExtractedParameter) (x : String × String) (hx : x ∈ errs) :
    x ∈ joiStep bag errs p := by
  unfold joiStep
  cases jsLookup bag p.param_name with
  | none =>
    show x ∈ if p.required = 1 then errs ++ [(p.param_name, "is required")]
      else errs
    by_cases hr : p.required = 1
    · rw [if_pos hr]; exact List.mem_append_left _ hx
    · rw [if_neg hr]; exact hx
  | some v =>
    show x ∈ if typeAccepts p.data_type v = true then errs
      else errs ++ [(p.param_name, "type mismatch")]
    by_cases ht : typeAccepts p.data_type v = true
    · rw [if_pos ht]; exact hx
    · rw [if_neg ht]; exact List.mem_append_left _ hx

/-- Accumulated errors survive the whole Joi fold. -/
theorem joiFold_mem (bag : JsBag) (defs : List ExtractedParameter)
    (acc : List (String × String)) (x : String × String) (hx : x ∈ acc) :
    x ∈ defs.foldl (joiStep bag) acc := by
  induction defs generalizing acc with
  | nil => simpa using hx
  | cons q rest ih =>
    exact ih (joiStep bag acc q) (joiStep_mem bag acc q x hx)

/-- A required parameter missing from the bag contributes its keyed
error to the collected error list. -/
theorem joiErrors_required_mem (defs : List ExtractedParameter)
    (bag : JsBag) (p : ExtractedParameter) (hp : p ∈ defs)
    (hreq : p.required = 1) (habs : jsLookup bag p.param_name = none) :
    (p.param_name, "is required") ∈ joiErrors defs bag := by
  unfold joiErrors
  have haux : ∀ (l : List ExtractedParameter) (acc : List (String × String)),
      p ∈ l → (p.param_name, "is required") ∈ l.foldl (joiStep bag) acc := by
    intro l
    induction l with
    | nil => intro acc h; simp at h
    | cons q rest ih =>
      intro acc h
      rcases List.mem_cons.mp h with heq | htail
      · subst heq
        have hstep : (p.param_name, "is required") ∈ joiStep bag acc p := by
          unfold joiStep
          rw [habs, if_pos hreq]
          simp
        exact joiFold_mem bag rest _ _ hstep
      · exact ih (joiStep bag acc q) htail
  exact haux defs [] hp

/-- Claim C6 (amended): validation collects all field errors keyed by
parameter name — every required parameter absent from the trimmed bag
yields an error entry keyed by that parameter's name, and makes the
result invalid — and when validation succeeds the sanitized bag is the
input bag with string values trimmed, with unknown keys retained (they
are ignored by validation but not stripped from the returned bag). -/
theorem validation_collects_errors (defs : List ExtractedParameter)
    (bag : JsBag) :
    (∀ p ∈ defs, p.required = 1 →
      jsLookup (sanitizeBag bag) p.param_name = none →
      (validateAndSanitizeRequest defs bag).valid = false ∧
      ∃ errs, (validateAndSanitizeRequest defs bag).errors = some errs ∧
        ∃ e ∈ errs, e.1 = p.param_name) ∧
    ((validateAndSanitizeRequest defs bag).valid = true →
      (validateAndSanitizeRequest defs bag).sanitizedParams =
        some (sanitizeBag bag)) := by
  constructor
  · intro p hp hreq habs
    have hmem := joiErrors_required_mem defs (sanitizeBag bag) p hp hreq habs
    have hdefs : defs.isEmpty = false := by
      cases defs with
      | nil => simp at hp
      | cons a l => rfl
    have herrs : (joiErrors defs (sanitizeBag bag)).isEmpty = false := by
      cases he : joiErrors defs (sanitizeBag bag) with
      | nil => rw [he] at hmem; simp at hmem
      | cons a l => rfl
    have hvr : validateRequest defs (sanitizeBag bag) =
        ⟨false, some (joiErrors defs (sanitizeBag bag))⟩ := by
      unfold validateRequest
      simp [hdefs, herrs]
    have hres : validateAndSanitizeRequest defs bag =
        ⟨false, none, some (joiErrors defs (sanitizeBag bag))⟩ := by
      unfold validateAndSanitizeRequest
      rw [hvr]
      rfl
    rw [hres]
    exact ⟨rfl, joiErrors defs (sanitizeBag bag), rfl,
      (p.param_name, "is required"), hmem, rfl⟩
  · intro hvalid
    unfold validateAndSanitizeRequest at hvalid ⊢
    cases hv : (validateRequest defs (sanitizeBag bag)).valid with
    | true => simp [hv]
    | false => rw [hv] at hvalid; simp at hvalid

/-- The parameter definition of `id` used by the validation fixtures. -/
def idNumParam : ExtractedParameter :=
  ⟨"id", "path", "number", 1, none, none, none⟩

/-- The stored definitions of the validation fixtures: one required
numeric `id`. -/
def defsC6 : List ExtractedParameter := [idNumParam]

/-- A bag holding a well-typed `id` and an unknown `junk` key. -/
def bagC6 : JsBag := [("id", JsVal.n 5), ("junk", JsVal.s " x ")]

/-- Claim C6 (counterexample).  With one required numeric parameter `id`
and the bag `{id: 5, junk: " x "}`, validation succeeds and the
returned sanitized bag still contains the unknown key `junk` (trimmed
to "x"): unknown keys are not stripped from the result, because the
value Joi strips them from is discarded by `validateRequest`. -/
theorem validation_strip_counterexample :
    (validateAndSanitizeRequest defsC6 bagC6).valid = true ∧
    (validateAndSanitizeRequest defsC6 bagC6).sanitizedParams =
      some [("id", JsVal.n 5), ("junk", JsVal.s "x")] ∧
    jsLookup ((validateAndSanitizeRequest defsC6 bagC6).sanitizedParams.getD [])
      "junk" = some (JsVal.s "x") := by
  refine ⟨rfl, rfl, rfl⟩

/-- Claim C6 (witness): with the required `id` parameter and an empty
bag, validation fails with an error keyed `id`. -/
theorem validation_collects_errors_witness :
    (validateAndSanitizeRequest defsC6 []).valid = false ∧
    ∃ errs, (validateAndSanitizeRequest defsC6 []).errors = some errs ∧
      ∃ e ∈ errs, e.1 = "id" :=
  (validation_collects_errors defsC6 []).1 idNumParam (by decide) (by decide)
    (by decide)

/-- Fresh inference fixes the parameter name. -/
theorem inferParameter_name (n sql : String) :
    (inferParameter n sql).param_name = n := rfl

/-- Reconciling never changes the parameter name. -/
theorem reconcileOne_name (existing : List ExtractedParameter)
    (p : ExtractedParameter) :
    (reconcileOne existing p).param_name = p.param_name := by
  unfold reconcileOne
  cases lookupStored existing p.param_name with
  | some e => rfl
  | none => rfl

/-- Every element of the fresh extraction is the fresh inference of its
own name, and its name is among the extracted names. -/
theorem mem_extractParameters (sql : String) (p : ExtractedParameter)
    (hp : p ∈ extractParameters sql) :
    p = inferParameter p.param_name sql ∧
    p.param_name ∈ extractParamNames sql := by
  unfold extractParameters at hp
  by_cases hsql : sql = ""
  · rw [if_pos hsql] at hp; simp at hp
  · rw [if_neg hsql] at hp
    obtain ⟨n, hn, rfl⟩ := List.mem_map.mp hp
    rw [inferParameter_name]
    exact ⟨rfl, hn⟩

/-- Claim C7 (amended): reconciliation maps the fresh extraction
name-for-name (so every stored parameter whose name no longer occurs as
a placeholder is dropped); for each extracted name present in the
stored set the stored location, data type, required flag, default value
and validation rule are kept, while the stored description is kept only
when it is a non-empty string and is otherwise replaced by the freshly
generated description; names absent from the stored set get fresh
inference. -/
theorem reconcile_preserves (sql : String)
    (stored : List ExtractedParameter) :
    ((extractParametersWithDefaults sql stored).map
        (fun p => p.param_name) =
      (extractParameters sql).map (fun p => p.param_name)) ∧
    (∀ m ∈ extractParametersWithDefaults sql stored,
      (∀ e, lookupStored stored m.param_name = some e →
        m.param_type = e.param_type ∧ m.data_type = e.data_type ∧
        m.required = e.required ∧ m.default_value = e.default_value ∧
        m.validation_rule = e.validation_rule ∧
        m.description = jsOrStr e.description
          (some (generateDescription m.param_name))) ∧
      (lookupStored stored m.param_name = none →
        m = inferParameter m.param_name sql)) ∧
    (∀ e ∈ stored, e.param_name ∉ extractParamNames sql →
      ∀ m ∈ extractParametersWithDefaults sql stored,
        m.param_name ≠ e.param_name) := by
  refine ⟨?_, ?_, ?_⟩
  · unfold extractParametersWithDefaults
    rw [List.map_map]
    exact List.map_congr_left (fun p _ => reconcileOne_name stored p)
  · intro m hm
    obtain ⟨p, hp, hmp⟩ := List.mem_map.mp hm
    obtain ⟨hpinf, hpname⟩ := mem_extractParameters sql p hp
    have hname : m.param_name = p.param_name := by
      rw [← hmp]; exact reconcileOne_name stored p
    constructor
    · intro e he
      rw [hname] at he
      have hm2 : m = { p with
          param_type := e.param_type
          data_type := e.data_type
          required := e.required
          default_value := e.default_value
          validation_rule := e.validation_rule
          description := jsOrStr e.description p.description } := by
        rw [← hmp]; unfold reconcileOne; rw [he]
      have hpdesc : p.description = some (generateDescription p.param_name) := by
        conv_lhs => rw [hpinf]
        rfl
      rw [hm2]
      refine ⟨rfl, rfl, rfl, rfl, rfl, ?_⟩
      show jsOrStr e.description p.description =
        jsOrStr e.description (some (generateDescription p.param_name))
      rw [hpdesc]
    · intro hnone
      rw [hname] at hnone
      have hid : reconcileOne stored p = p := by
        unfold reconcileOne; rw [hnone]
      rw [← hmp, hid]
      exact hpinf
  · intro e he hdrop m hm heq
    obtain ⟨p, hp, hmp⟩ := List.mem_map.mp hm
    obtain ⟨hpinf, hpname⟩ := mem_extractParameters sql p hp
    have hname : m.param_name = p.param_name := by
      rw [← hmp]; exact reconcileOne_name stored p
    rw [heq] at hname
    rw [← hname] at hpname
    exact hdrop hpname

/-- The SQL text of the reconcile counterexample: one `name`
placeholder. -/
def sqlC7 : String := "SELECT * FROM t WHERE name = \x7b\x7bname\x7d\x7d"

/-- A stored `name` parameter carrying no description. -/
def storedC7 : List ExtractedParameter :=
  [⟨"name", "query", "string", 1, none, none, none⟩]

/-- Claim C7 (counterexample).  Reconciling `sqlC7` against a stored
`name` parameter whose description is absent does not keep the stored
description: the merged parameter carries the freshly generated
description `Name` (the code computes
`existing.description || param.description`, so a falsy stored
description is replaced). -/
theorem reconcile_description_counterexample :
    (extractParametersWithDefaults sqlC7 storedC7).map
      (fun p => (p.param_name, p.description)) = [("name", some "Name")] ∧
    storedC7.map (fun p => p.description) = [none] := by
  refine ⟨rfl, rfl⟩

/-- Claim C7 (witness): instantiating the amended reconcile theorem at
`sqlC7` and `storedC7`: the merged `name` parameter keeps the stored
location, type, required flag, default and validation rule, and its
description is the `jsOrStr` merge of the stored and fresh ones. -/
theorem reconcile_preserves_witness :
    ∀ m ∈ extractParametersWithDefaults sqlC7 storedC7,
      ∀ e, lookupStored storedC7 m.param_name = some e →
        m.param_type = e.param_type ∧ m.data_type = e.data_type ∧
        m.required = e.required ∧ m.default_value = e.default_value ∧
        m.validation_rule = e.validation_rule ∧
        m.description = jsOrStr e.description
          (some (generateDescription m.param_name)) :=
  fun m hm e he => ((reconcile_preserves sqlC7 storedC7).2.1 m hm).1 e he

/-- Replacement text without a dollar character expands to itself at
every match site. -/
theorem expandRepAux_no_dollar (rep : List Char) :
    dollarChar ∉ rep →
    ∀ matched before after : List Char,
      expandRepAux matched before after rep = rep := by
  induction rep with
  | nil => intro _ m b a; rfl
  | cons c rest ih =>
    intro h m b a
    have hc : ¬ c = dollarChar := by
      intro he
      exact h (by rw [he]; exact List.mem_cons_self _ _)
    have hrest : dollarChar ∉ rest := fun hm => h (List.mem_cons_of_mem c hm)
    unfold expandRepAux
    rw [if_neg hc, ih hrest m b a]

/-- With dollar-free replacement text the JS replace scan coincides with
literal substitution. -/
theorem jsReplaceAllAux_no_dollar (pat rep : List Char)
    (h : dollarChar ∉ rep) :
    ∀ (fuel : Nat) (pre cs : List Char),
      jsReplaceAllAux pat rep fuel pre cs = replaceAllAux pat rep fuel cs := by
  intro fuel
  induction fuel with
  | zero =>
    intro pre cs
    cases cs with
    | nil => rfl
    | cons c rest => rfl
  | succ n ih =>
    intro pre cs
    cases cs with
    | nil => rfl
    | cons c rest =>
      unfold jsReplaceAllAux replaceAllAux
      by_cases hp : pat.isPrefixOf (c :: rest) = true
      · rw [if_pos hp, if_pos hp, expandRepAux_no_dollar rep h, ih]
      · rw [if_neg hp, if_neg hp, ih]

/-- Dollar-free replacement text makes the program's replace equal to
the literal substitution the specification describes. -/
theorem jsReplaceAll_no_dollar (s pat rep : String)
    (h : dollarChar ∉ rep.toList) :
    jsReplaceAll s pat rep = strReplaceAll s pat rep := by
  unfold jsReplaceAll strReplaceAll
  by_cases hp : pat = ""
  · rw [if_pos hp, if_pos hp]
  · rw [if_neg hp, if_neg hp,
      jsReplaceAllAux_no_dollar pat.toList rep.toList h]

/-- The SQL text of the rendering counterexample: a raw `order_by`
placeholder. -/
def sqlC2order : String := "SELECT * FROM t ORDER BY \x7b\x7border_by\x7d\x7d"

/-- Claim C2 (counterexample).  The allow-listed `order_by` value `$&`
is not substituted as a raw literal: the JS replacement expansion
re-inserts the matched placeholder text, so the rendered SQL still
reads `ORDER BY \x7b\x7border_by\x7d\x7d` instead of `ORDER BY $&`; and the
`limit` value `5$$0` renders as `5$0`, with the doubled dollar
collapsed. -/
theorem renderDollar_counterexample :
    renderSql sqlC2order [("order_by", JsVal.s "$&")] =
      ("SELECT * FROM t ORDER BY \x7b\x7border_by\x7d\x7d", []) ∧
    renderSql sqlC2order [("order_by", JsVal.s "$&")] ≠
      ("SELECT * FROM t ORDER BY $&", []) ∧
    renderSql "SELECT * FROM t LIMIT \x7b\x7blimit\x7d\x7d"
        [("limit", JsVal.s "5$$0")] =
      ("SELECT * FROM t LIMIT 5$0", []) := by
  refine ⟨by decide, by decide, by decide⟩

/-- Claim C2 (amended): for a bag entry whose placeholder occurs in the
current SQL text, a `search` key is quote-escaped, percent-wrapped and
substituted through the JS replacement semantics; an allow-listed key
(`order_by`, `order`, `limit`) is likewise substituted through the JS
replacement semantics — which expand dollar sequences of the value at
each match site, and substitute the value as a raw literal exactly when
it carries no dollar character; every other key is substituted with the
literal `?` bound-parameter placeholder and its value appended to the
bound list, in entry order. -/
theorem renderLoop_cases (sql : String) (qp : List JsVal) (k : String)
    (v : JsVal) (rest : JsBag)
    (hocc : strContains sql (placeholderOf k) = true) :
    (k = "search" →
      renderSqlLoop sql qp ((k, v) :: rest) =
        renderSqlLoop (jsReplaceAll sql (placeholderOf k)
          (squote ++ "%" ++ jsReplaceAll (jsString v) squote (squote ++ squote)
            ++ "%" ++ squote)) qp rest) ∧
    (k ≠ "search" → directReplaceParams.contains k = true →
      renderSqlLoop sql qp ((k, v) :: rest) =
        renderSqlLoop (jsReplaceAll sql (placeholderOf k) (jsString v))
          qp rest) ∧
    (k ≠ "search" → directReplaceParams.contains k = false →
      renderSqlLoop sql qp ((k, v) :: rest) =
        renderSqlLoop (strReplaceAll sql (placeholderOf k) "?")
          (qp ++ [v]) rest) ∧
    (dollarChar ∉ (jsString v).toList →
      jsReplaceAll sql (placeholderOf k) (jsString v) =
        strReplaceAll sql (placeholderOf k) (jsString v)) := by
  refine ⟨?_, ?_, ?_, ?_⟩
  · intro hk
    subst hk
    conv_lhs => rw [renderSqlLoop]
    rw [if_pos hocc, if_pos rfl]
  · intro hk hdirect
    conv_lhs => rw [renderSqlLoop]
    rw [if_pos hocc, if_neg (fun hc => hk hc), if_pos hdirect]
  · intro hk hdirect
    conv_lhs => rw [renderSqlLoop]
    rw [if_pos hocc, if_neg (fun hc => hk hc), if_neg (by rw [hdirect]; simp),
      jsReplaceAll_no_dollar sql (placeholderOf k) "?" (by decide)]
  · intro hnd
    exact jsReplaceAll_no_dollar sql (placeholderOf k) (jsString v) hnd

/-- The SQL text of the rendering witness. -/
def sqlC2 : String := "SELECT * FROM u WHERE id = \x7b\x7bid\x7d\x7d"

/-- Claim C2 (witness): the `id` entry, being neither `search` nor
allow-listed, is substituted with the literal `?` and its value lands
on the bound list; and the dollar-free value `42` would substitute
as a raw literal. -/
theorem renderLoop_cases_witness :
    renderSqlLoop sqlC2 [] [("id", JsVal.s "42")] =
      renderSqlLoop (strReplaceAll sqlC2 (placeholderOf "id") "?")
        ([] ++ [JsVal.s "42"]) [] ∧
    jsReplaceAll sqlC2 (placeholderOf "id") (jsString (JsVal.s "42")) =
      strReplaceAll sqlC2 (placeholderOf "id") (jsString (JsVal.s "42")) :=
  ⟨(renderLoop_cases sqlC2 [] "id" (JsVal.s "42") [] (by decide)).2.2.1
      (by decide) (by decide),
    (renderLoop_cases sqlC2 [] "id" (JsVal.s "42") [] (by decide)).2.2.2
      (by decide)⟩

/-- Whether the raw SQL text itself begins with the six letters SELECT
(case-insensitive) followed by a whitespace character — the only texts
the MSSQL prefix rewrite `/^SELECT\s+/i` fires on. -/
def rawSelectWsPrefix (sql : String) : Bool :=
  ((sql.toList.take 6).map Char.toUpper = "SELECT".toList) &&
    (match sql.toList.drop 6 with
     | c :: _ => c.isWhitespace
     | [] => false)

/-- The MSSQL prefix rewrite leaves texts without the anchored
SELECT-plus-whitespace prefix unchanged. -/
theorem mssqlTopReplace_no_prefix (sql : String)
    (h : rawSelectWsPrefix sql = false) : mssqlTopReplace sql = sql := by
  unfold mssqlTopReplace
  unfold rawSelectWsPrefix at h
  by_cases h6 : (sql.toList.take 6).map Char.toUpper = "SELECT".toList
  · rw [if_pos h6]
    cases hdrop : sql.toList.drop 6 with
    | nil => rfl
    | cons c cs2 =>
      rw [hdrop] at h
      simp only [h6] at h
      simp at h
      show (if c.isWhitespace then
        "SELECT TOP 1000 " ++ String.mk ((c :: cs2).dropWhile Char.isWhitespace)
        else sql) = sql
      simp [h]
  · rw [if_neg h6]

/-- The MSSQL prefix rewrite on texts with the anchored prefix: the
SELECT keyword and the whitespace run after it are replaced by
`SELECT TOP 1000 `. -/
theorem mssqlTopReplace_prefix (sql : String)
    (h : rawSelectWsPrefix sql = true) :
    mssqlTopReplace sql =
      "SELECT TOP 1000 " ++
        String.mk ((sql.toList.drop 6).dropWhile Char.isWhitespace) := by
  unfold mssqlTopReplace
  unfold rawSelectWsPrefix at h
  rw [Bool.and_eq_true] at h
  obtain ⟨h6, hws⟩ := h
  have h6p : (sql.toList.take 6).map Char.toUpper = "SELECT".toList :=
    of_decide_eq_true h6
  rw [if_pos h6p]
  cases hdrop : sql.toList.drop 6 with
  | nil => rw [hdrop] at hws; simp at hws
  | cons c cs2 =>
    rw [hdrop] at hws
    simp at hws
    show (if c.isWhitespace then
      "SELECT TOP 1000 " ++ String.mk ((c :: cs2).dropWhile Char.isWhitespace)
      else sql) =
      "SELECT TOP 1000 " ++ String.mk ((c :: cs2).dropWhile Char.isWhitespace)
    simp [hws]

/-- Claim C3 (counterexample).  Against the MSSQL dialect, the SELECT
text with one leading space receives no row cap at all: the trimmed
text passes the SELECT detection, but the anchored prefix rewrite fails
on the raw text, so the statement is returned unchanged and contains no
TOP clause.  Against MySQL, a text whose (only) semicolon is not
trailing gets ` LIMIT 1000` spliced before that mid-text semicolon
rather than appended at the end. -/
theorem rowCap_claim_counterexample :
    applyRowCap "mssql" " SELECT * FROM T" = " SELECT * FROM T" ∧
    strContains (applyRowCap "mssql" " SELECT * FROM T") "TOP 1000" = false ∧
    applyRowCap "mysql" "SELECT a FROM t; SELECT b FROM u" =
      "SELECT a FROM t LIMIT 1000; SELECT b FROM u" ∧
    applyRowCap "mysql" "SELECT a FROM t; SELECT b FROM u" ≠
      "SELECT a FROM t; SELECT b FROM u LIMIT 1000" := by
  refine ⟨by decide, by decide, by decide, by decide⟩

/-- Claim C3 (amended): when the trimmed upper-cased statement starts
with SELECT and carries no dialect limit marker, MySQL and PostgreSQL
splice ` LIMIT 1000` immediately before the last semicolon of the text
(or append it when there is none), and Oracle does the same with
` FETCH FIRST 1000 ROWS ONLY`; MSSQL rewrites the statement to
`SELECT TOP 1000 ...` only when the raw text itself begins with SELECT
followed by whitespace, and otherwise leaves even a SELECT unchanged;
statements that are not SELECTs, or that already carry the dialect's
limit marker, are unchanged. -/
theorem rowCap_amended (dbType sql : String) :
    (strStartsWith (strToUpper (strTrim sql)) "SELECT" = false →
      applyRowCap dbType sql = sql) ∧
    ((dbType = "mysql" ∨ dbType = "postgresql") →
      strStartsWith (strToUpper (strTrim sql)) "SELECT" = true →
      (strContains (strToUpper (strTrim sql)) " LIMIT " = false →
        strEndsWith (strToUpper (strTrim sql)) " LIMIT" = false →
        applyRowCap dbType sql = insertBeforeLastSemicolon sql " LIMIT 1000") ∧
      (strContains (strToUpper (strTrim sql)) " LIMIT " = true →
        applyRowCap dbType sql = sql)) ∧
    (dbType = "mssql" →
      strStartsWith (strToUpper (strTrim sql)) "SELECT" = true →
      (strContains (strToUpper (strTrim sql)) " TOP " = false →
        applyRowCap dbType sql = mssqlTopReplace sql ∧
        (rawSelectWsPrefix sql = false → applyRowCap dbType sql = sql) ∧
        (rawSelectWsPrefix sql = true →
          applyRowCap dbType sql = "SELECT TOP 1000 " ++
            String.mk ((sql.toList.drop 6).dropWhile Char.isWhitespace))) ∧
      (strContains (strToUpper (strTrim sql)) " TOP " = true →
        applyRowCap dbType sql = sql)) ∧
    (dbType = "oracle" →
      strStartsWith (strToUpper (strTrim sql)) "SELECT" = true →
      strContains (strToUpper (strTrim sql)) " ROWNUM " = false →
      strContains (strToUpper (strTrim sql)) " FETCH FIRST " = false →
      applyRowCap dbType sql =
        insertBeforeLastSemicolon sql " FETCH FIRST 1000 ROWS ONLY") := by
  refine ⟨?_, ?_, ?_, ?_⟩
  · intro hns
    unfold applyRowCap
    rw [if_neg (by simp [hns])]
  · intro hd hsel
    constructor
    · intro hc he
      unfold applyRowCap
      rw [if_pos hsel, if_pos (by rcases hd with h | h <;> simp [h]),
        if_pos (by simp [hc, he])]
    · intro hc
      unfold applyRowCap
      rw [if_pos hsel, if_pos (by rcases hd with h | h <;> simp [h]),
        if_neg (by simp [hc])]
  · intro hd hsel
    subst hd
    refine ⟨fun htop => ?_, fun htop => ?_⟩
    · have happ : applyRowCap "mssql" sql = mssqlTopReplace sql := by
        unfold applyRowCap
        rw [if_pos hsel, if_neg (by decide), if_pos rfl,
          if_pos (by simp [htop])]
      exact ⟨happ,
        fun hraw => by rw [happ]; exact mssqlTopReplace_no_prefix sql hraw,
        fun hraw => by rw [happ]; exact mssqlTopReplace_prefix sql hraw⟩
    · unfold applyRowCap
      rw [if_pos hsel, if_neg (by decide), if_pos rfl,
        if_neg (by simp [htop])]
  · intro hd hsel hrn hff
    subst hd
    unfold applyRowCap
    rw [if_pos hsel, if_neg (by decide), if_neg (by decide), if_pos rfl,
      if_pos (by simp [hrn, hff])]

/-- Claim C3 (witness): a plain MySQL SELECT without a limit clause gets
the ` LIMIT 1000` splice. -/
theorem rowCap_amended_witness :
    applyRowCap "mysql" "SELECT x FROM t" =
      insertBeforeLastSemicolon "SELECT x FROM t" " LIMIT 1000" :=
  ((rowCap_amended "mysql" "SELECT x FROM t").2.1 (Or.inl rfl) (by decide)).1
    (by decide) (by decide)

/-- A successful segment match implies equal segment counts. -/
theorem matchSegments_length (as : List String) :
    ∀ (rs : List String) (b : List (String × String)),
      matchSegments as rs = some b → as.length = rs.length := by
  induction as with
  | nil =>
    intro rs b h
    cases rs with
    | nil => rfl
    | cons r rs2 => simp [matchSegments] at h
  | cons a as2 ih =>
    intro rs b h
    cases rs with
    | nil => simp [matchSegments] at h
    | cons r rs2 =>
      unfold matchSegments at h
      by_cases hp : strStartsWith a ":" = true
      · rw [if_pos hp] at h
        cases hm : matchSegments as2 rs2 with
        | none => rw [hm] at h; simp at h
        | some b2 =>
          simp [List.length_cons, ih rs2 b2 hm]
      · rw [if_neg hp] at h
        by_cases he : a = r
        · rw [if_pos he] at h
          simp [List.length_cons, ih rs2 b h]
        · rw [if_neg he] at h; simp at h

/-- Soundness of the first-fit scan: a returned endpoint is in the list
and fully matches the request segments with the returned bindings. -/
theorem firstMatch_sound (l : List ApiRow) :
    ∀ (rs : List String) (a : ApiRow) (b : List (String × String)),
      firstMatch l rs = some (a, b) →
      a ∈ l ∧ matchSegments (segsOf a.path) rs = some b := by
  induction l with
  | nil => intro rs a b h; simp [firstMatch] at h
  | cons x xs ih =>
    intro rs a b h
    unfold firstMatch at h
    cases hm : matchSegments (segsOf x.path) rs with
    | some bx =>
      rw [hm] at h
      simp at h
      obtain ⟨hax, hbx⟩ := h
      subst hax; subst hbx
      exact ⟨List.mem_cons_self x xs, hm⟩
    | none =>
      rw [hm] at h
      obtain ⟨hmem, hmatch⟩ := ih rs a b h
      exact ⟨List.mem_cons_of_mem x hmem, hmatch⟩

/-- The first-fit scan over an appended list tries the left part first. -/
theorem firstMatch_append (l1 l2 : List ApiRow) (rs : List String) :
    firstMatch (l1 ++ l2) rs =
      match firstMatch l1 rs with
      | some r => some r
      | none => firstMatch l2 rs := by
  induction l1 with
  | nil => simp [firstMatch]
  | cons x xs ih =>
    cases hm : matchSegments (segsOf x.path) rs with
    | some bx => simp [firstMatch, hm]
    | none => simp [firstMatch, hm, ih]

/-- A member that matches guarantees the scan returns a hit. -/
theorem firstMatch_isSome_of_mem (l : List ApiRow) :
    ∀ (rs : List String) (x : ApiRow) (bx : List (String × String)),
      x ∈ l → matchSegments (segsOf x.path) rs = some bx →
      (firstMatch l rs).isSome = true := by
  induction l with
  | nil => intro rs x bx hx; simp at hx
  | cons y ys ih =>
    intro rs x bx hx hmx
    unfold firstMatch
    cases hm : matchSegments (segsOf y.path) rs with
    | some by2 => rfl
    | none =>
      rcases List.mem_cons.mp hx with heq | htail
      · subst heq; rw [hm] at hmx; simp at hmx
      · exact ih rs x bx htail hmx

/-- The returned hit is the first matching element of the scanned list:
everything before it fails to match. -/
theorem firstMatch_first (l : List ApiRow) :
    ∀ (rs : List String) (a : ApiRow) (b : List (String × String)),
      firstMatch l rs = some (a, b) →
      ∃ l1 l2, l = l1 ++ a :: l2 ∧
        ∀ x ∈ l1, matchSegments (segsOf x.path) rs = none := by
  induction l with
  | nil => intro rs a b h; simp [firstMatch] at h
  | cons x xs ih =>
    intro rs a b h
    unfold firstMatch at h
    cases hm : matchSegments (segsOf x.path) rs with
    | some bx =>
      rw [hm] at h
      simp at h
      obtain ⟨hax, hbx⟩ := h
      subst hax
      exact ⟨[], xs, rfl, by simp⟩
    | none =>
      rw [hm] at h
      obtain ⟨l1, l2, hsplit, hall⟩ := ih rs a b h
      refine ⟨x :: l1, l2, by simp [hsplit], ?_⟩
      intro y hy
      rcases List.mem_cons.mp hy with heq | htail
      · subst heq; exact hm
      · exact hall y htail

/-- Claim C4: route matching considers only published endpoints of the
request's verb whose paths have the request's segment count; the match
is the first full segment match in the ordering that puts every fixed
path before every parameterized path; `:name` segments bind positionally
through `matchSegments`; and whenever some fixed-path endpoint matches,
the selected endpoint is a fixed-path one. -/
theorem findMatchingAPI_spec (apis : List ApiRow) (path method : String) :
    (∀ api binds, findMatchingAPI apis path method = some (api, binds) →
      api ∈ apis ∧ api.method = method ∧ api.status = "published" ∧
      (segsOf api.path).length = (segsOf path).length ∧
      matchSegments (segsOf api.path) (segsOf path) = some binds ∧
      ∃ l1 l2, orderedCandidates apis path method = l1 ++ api :: l2 ∧
        ∀ x ∈ l1, matchSegments (segsOf x.path) (segsOf path) = none) ∧
    (∀ f ∈ apis, f.method = method → f.status = "published" →
      hasPathParams f = false →
      ∀ bf, matchSegments (segsOf f.path) (segsOf path) = some bf →
      ∃ api binds, findMatchingAPI apis path method = some (api, binds) ∧
        hasPathParams api = false) := by
  constructor
  · intro api binds h
    unfold findMatchingAPI at h
    obtain ⟨hmem, hmatch⟩ :=
      firstMatch_sound (orderedCandidates apis path method) (segsOf path)
        api binds h
    have hcand : api ∈ apiCandidates apis path method := by
      unfold orderedCandidates at hmem
      rcases List.mem_append.mp hmem with hfix | hpar
      · exact (List.mem_filter.mp hfix).1
      · exact (List.mem_filter.mp hpar).1
    have hlen : (segsOf api.path).length = (segsOf path).length := by
      have := (List.mem_filter.mp hcand).2
      simpa using this
    have helig : api ∈ apiEligible apis method :=
      (List.mem_filter.mp hcand).1
    have hprops := (List.mem_filter.mp helig).2
    have hmethod : api.method = method := by
      simp at hprops; exact hprops.1
    have hstatus : api.status = "published" := by
      simp at hprops; exact hprops.2
    have hin : api ∈ apis := (List.mem_filter.mp helig).1
    obtain ⟨l1, l2, hsplit, hall⟩ :=
      firstMatch_first (orderedCandidates apis path method) (segsOf path)
        api binds h
    exact ⟨hin, hmethod, hstatus, hlen, hmatch, l1, l2, hsplit, hall⟩
  · intro f hf hfm hfs hfix bf hbf
    have hlen : (segsOf f.path).length = (segsOf path).length :=
      matchSegments_length (segsOf f.path) (segsOf path) bf hbf
    have helig : f ∈ apiEligible apis method := by
      unfold apiEligible
      rw [List.mem_filter]
      exact ⟨hf, by simp [hfm, hfs]⟩
    have hcand : f ∈ apiCandidates apis path method := by
      unfold apiCandidates
      rw [List.mem_filter]
      exact ⟨helig, by simp [hlen]⟩
    have hfixmem : f ∈ (apiCandidates apis path method).filter
        (fun a => !hasPathParams a) := by
      rw [List.mem_filter]
      exact ⟨hcand, by simp [hfix]⟩
    have hsome : (firstMatch ((apiCandidates apis path method).filter
        (fun a => !hasPathParams a)) (segsOf path)).isSome = true :=
      firstMatch_isSome_of_mem _ (segsOf path) f bf hfixmem hbf
    cases hfm2 : firstMatch ((apiCandidates apis path method).filter
        (fun a => !hasPathParams a)) (segsOf path) with
    | none => rw [hfm2] at hsome; simp at hsome
    | some r =>
      obtain ⟨a, b⟩ := r
      have hres : findMatchingAPI apis path method = some (a, b) := by
        unfold findMatchingAPI orderedCandidates
        rw [firstMatch_append, hfm2]
      obtain ⟨hamem, _⟩ := firstMatch_sound _ (segsOf path) a b hfm2
      have hafix : hasPathParams a = false := by
        have := (List.mem_filter.mp hamem).2
        simpa using this
      exact ⟨a, b, hres, hafix⟩

/-- An endpoint with a parameterized path, listed before the fixed one. -/
def paramApiC4 : ApiRow :=
  { id := 2, path := "/users/:id", method := "GET", status := "published",
    require_auth := 0, sql_template := "", datasource_id := 1,
    ds_status := "active", ds_type := "mysql" }

/-- A fixed-path endpoint on the same segment count. -/
def fixedApiC4 : ApiRow :=
  { id := 3, path := "/users/me", method := "GET", status := "published",
    require_auth := 0, sql_template := "", datasource_id := 1,
    ds_status := "active", ds_type := "mysql" }

/-- The endpoint table of the route-matching witness: the parameterized
path precedes the fixed one. -/
def apisC4 : List ApiRow := [paramApiC4, fixedApiC4]

/-- Claim C4 (witness): on `/users/me`, where both the parameterized and
the fixed endpoint match, a fixed-path endpoint is selected even though
the parameterized endpoint comes first in the table. -/
theorem findMatchingAPI_spec_witness :
    ∃ api binds, findMatchingAPI apisC4 "/users/me" "GET" = some (api, binds) ∧
      hasPathParams api = false :=
  (findMatchingAPI_spec apisC4 "/users/me" "GET").2 fixedApiC4 (by decide)
    rfl rfl (by decide) [] (by decide)

/-- The empty pool registry. -/
def emptyPoolState : PoolState := ⟨[], [], [], []⟩

/-- A MySQL datasource configuration used by the pool witness. -/
def mysqlCfg : DbConfig :=
  ⟨"localhost", 3306, "root", "pw", "appdb", "mysql"⟩

/-- An MSSQL datasource configuration used by the pool counterexample. -/
def mssqlCfg : DbConfig :=
  ⟨"db.host", 1433, "sa", "pw", "appdb", "mssql"⟩

/-- Claim C8 (counterexample).  With no pool registered under the key
and the supported `mssql` dialect, `createPool` still throws when the
eager driver connect / session-init fails, and registers nothing: the
claimed "throws if and only if duplicate or unsupported dialect" is
false of the program. -/
theorem createPool_driver_counterexample :
    createPool ⟨false, true⟩ mssqlCfg "ds_9" emptyPoolState =
      Except.error "MSSQL driver connection or session initialization failed" ∧
    (poolsFor emptyPoolState mssqlCfg.type).contains "ds_9" = false ∧
    (mssqlCfg.type = "mysql" ∨ mssqlCfg.type = "postgresql" ∨
      mssqlCfg.type = "mssql" ∨ mssqlCfg.type = "oracle") := by
  refine ⟨rfl, rfl, Or.inr (Or.inr (Or.inl rfl))⟩

/-- Claim C8 (amended): `createPool` throws exactly when the
configuration's dialect is not one of the four supported dialects, or a
pool is already registered under the key in that dialect's map (the
registry is keyed by datasource identity and dialect, one map per
dialect), or — for the MSSQL and Oracle dialects — the eager driver
pool construction / session initialization fails; in every other case
the new pool is registered under the key in the dialect's map. -/
theorem createPool_spec (drv : DriverEnv) (config : DbConfig)
    (poolName : String) (st : PoolState) :
    ((∃ msg, createPool drv config poolName st = Except.error msg) ↔
      (¬(config.type = "mysql" ∨ config.type = "postgresql" ∨
          config.type = "mssql" ∨ config.type = "oracle") ∨
        (poolsFor st config.type).contains poolName = true ∨
        (config.type = "mssql" ∧ drv.mssqlPoolOk = false) ∨
        (config.type = "oracle" ∧ drv.oraclePoolOk = false))) ∧
    (∀ st2, createPool drv config poolName st = Except.ok st2 →
      poolsFor st2 config.type = poolsFor st config.type ++ [poolName]) := by
  by_cases h1 : config.type = "mysql"
  · constructor
    · by_cases hc : st.mysqlPools.contains poolName = true
      · constructor
        · intro _
          right; left
          unfold poolsFor
          rw [h1]
          exact hc
        · intro _
          unfold createPool
          rw [if_pos h1, if_pos hc]
          exact ⟨_, rfl⟩
      · constructor
        · intro ⟨msg, hmsg⟩
          unfold createPool at hmsg
          rw [if_pos h1, if_neg hc] at hmsg
          simp at hmsg
        · intro hor
          rcases hor with hns | hdup | ⟨hms, _⟩ | ⟨hora, _⟩
          · exact absurd (Or.inl h1) hns
          · unfold poolsFor at hdup
            rw [h1] at hdup
            exact absurd hdup hc
          · rw [h1] at hms; simp at hms
          · rw [h1] at hora; simp at hora
    · intro st2 hok
      unfold createPool at hok
      rw [if_pos h1] at hok
      by_cases hc : st.mysqlPools.contains poolName = true
      · rw [if_pos hc] at hok; simp at hok
      · rw [if_neg hc] at hok
        simp at hok
        unfold poolsFor
        rw [h1, ← hok]
        simp
  · by_cases h2 : config.type = "postgresql"
    · constructor
      · by_cases hc : st.pgPools.contains poolName = true
        · constructor
          · intro _
            right; left
            unfold poolsFor
            rw [h2]
            exact hc
          · intro _
            unfold createPool
            rw [if_neg h1, if_pos h2, if_pos hc]
            exact ⟨_, rfl⟩
        · constructor
          · intro ⟨msg, hmsg⟩
            unfold createPool at hmsg
            rw [if_neg h1, if_pos h2, if_neg hc] at hmsg
            simp at hmsg
          · intro hor
            rcases hor with hns | hdup | ⟨hms, _⟩ | ⟨hora, _⟩
            · exact absurd (Or.inr (Or.inl h2)) hns
            · unfold poolsFor at hdup
              rw [h2] at hdup
              exact absurd hdup hc
            · rw [h2] at hms; simp at hms
            · rw [h2] at hora; simp at hora
      · intro st2 hok
        unfold createPool at hok
        rw [if_neg h1, if_pos h2] at hok
        by_cases hc : st.pgPools.contains poolName = true
        · rw [if_pos hc] at hok; simp at hok
        · rw [if_neg hc] at hok
          simp at hok
          unfold poolsFor
          rw [h2, ← hok]
          simp
    · by_cases h3 : config.type = "mssql"
      · constructor
        · by_cases hc : st.mssqlPools.contains poolName = true
          · constructor
            · intro _
              right; left
              unfold poolsFor
              rw [h3]
              exact hc
            · intro _
              unfold createPool
              rw [if_neg h1, if_neg h2, if_pos h3, if_pos hc]
              exact ⟨_, rfl⟩
          · by_cases hd : drv.mssqlPoolOk = true
            · constructor
              · intro ⟨msg, hmsg⟩
                unfold createPool at hmsg
                rw [if_neg h1, if_neg h2, if_pos h3, if_neg hc,
                  if_neg (by simp [hd])] at hmsg
                simp at hmsg
              · intro hor
                rcases hor with hns | hdup | ⟨_, hflag⟩ | ⟨hora, _⟩
                · exact absurd (Or.inr (Or.inr (Or.inl h3))) hns
                · unfold poolsFor at hdup
                  rw [h3] at hdup
                  exact absurd hdup hc
                · rw [hd] at hflag; simp at hflag
                · rw [h3] at hora; simp at hora
            · have hdf : drv.mssqlPoolOk = false := by simpa using hd
              constructor
              · intro _
                right; right; left
                exact ⟨h3, hdf⟩
              · intro _
                unfold createPool
                rw [if_neg h1, if_neg h2, if_pos h3, if_neg hc,
                  if_pos (by simp [hdf])]
                exact ⟨_, rfl⟩
        · intro st2 hok
          unfold createPool at hok
          rw [if_neg h1, if_neg h2, if_pos h3] at hok
          by_cases hc : st.mssqlPools.contains poolName = true
          · rw [if_pos hc] at hok; simp at hok
          · rw [if_neg hc] at hok
            by_cases hd : drv.mssqlPoolOk = true
            · rw [if_neg (by simp [hd])] at hok
              simp at hok
              unfold poolsFor
              rw [h3, ← hok]
              simp
            · have hdf : drv.mssqlPoolOk = false := by simpa using hd
              rw [if_pos (by simp [hdf])] at hok
              simp at hok
      · by_cases h4 : config.type = "oracle"
        · constructor
          · by_cases hc : st.oraclePools.contains poolName = true
            · constructor
              · intro _
                right; left
                unfold poolsFor
                rw [h4]
                exact hc
              · intro _
                unfold createPool
                rw [if_neg h1, if_neg h2, if_neg h3, if_pos h4, if_pos hc]
                exact ⟨_, rfl⟩
            · by_cases hd : drv.oraclePoolOk = true
              · constructor
                · intro ⟨msg, hmsg⟩
                  unfold createPool at hmsg
                  rw [if_neg h1, if_neg h2, if_neg h3, if_pos h4, if_neg hc,
                    if_neg (by simp [hd])] at hmsg
                  simp at hmsg
                · intro hor
                  rcases hor with hns | hdup | ⟨hms, _⟩ | ⟨_, hflag⟩
                  · exact absurd (Or.inr (Or.inr (Or.inr h4))) hns
                  · unfold poolsFor at hdup
                    rw [h4] at hdup
                    exact absurd hdup hc
                  · rw [h4] at hms; simp at hms
                  · rw [hd] at hflag; simp at hflag
              · have hdf : drv.oraclePoolOk = false := by simpa using hd
                constructor
                · intro _
                  right; right; right
                  exact ⟨h4, hdf⟩
                · intro _
                  unfold createPool
                  rw [if_neg h1, if_neg h2, if_neg h3, if_pos h4, if_neg hc,
                    if_pos (by simp [hdf])]
                  exact ⟨_, rfl⟩
          · intro st2 hok
            unfold createPool at hok
            rw [if_neg h1, if_neg h2, if_neg h3, if_pos h4] at hok
            by_cases hc : st.oraclePools.contains poolName = true
            · rw [if_pos hc] at hok; simp at hok
            · rw [if_neg hc] at hok
              by_cases hd : drv.oraclePoolOk = true
              · rw [if_neg (by simp [hd])] at hok
                simp at hok
                unfold poolsFor
                rw [h4, ← hok]
                simp
              · have hdf : drv.oraclePoolOk = false := by simpa using hd
                rw [if_pos (by simp [hdf])] at hok
                simp at hok
        · constructor
          · constructor
            · intro _
              left
              intro hor
              rcases hor with h | h | h | h
              · exact h1 h
              · exact h2 h
              · exact h3 h
              · exact h4 h
            · intro _
              unfold createPool
              rw [if_neg h1, if_neg h2, if_neg h3, if_neg h4]
              exact ⟨_, rfl⟩
          · intro st2 hok
            unfold createPool at hok
            rw [if_neg h1, if_neg h2, if_neg h3, if_neg h4] at hok
            simp at hok

/-- Claim C8 (witness): registering a fresh key against the empty
registry, with the driver steps succeeding, records the key in the
MySQL map. -/
theorem createPool_spec_witness :
    poolsFor ⟨["ds_1"], [], [], []⟩ mysqlCfg.type =
      poolsFor emptyPoolState mysqlCfg.type ++ ["ds_1"] :=
  (createPool_spec ⟨true, true⟩ mysqlCfg "ds_1" emptyPoolState).2
    ⟨["ds_1"], [], [], []⟩ rfl

/-- Claim C10 (witness): a concrete existing row keeps its average and
success count through the failure upsert, and the 503 outcome of
`env503` issues a failure-path upsert. -/
theorem failureUpsert_frame_witness :
    failureStatsUpsert (some ⟨2, 1, 1, 10, "t1"⟩) "t2" =
      ⟨2 + 1, 1, 1 + 1, 10, "t2"⟩ ∧
    ∃ i, StatsOp.failure 1 = StatsOp.failure i :=
  ⟨failureUpsert_frame.1 ⟨2, 1, 1, 10, "t1"⟩ "t2",
    failureUpsert_frame.2 env503 (by decide) (StatsOp.failure 1) (by decide)⟩
